import Mathlib

/-! moonflix-backend: cache-aside metadata proxy

A shallow embedding of `src/index.js`, `src/services/tmdb.js`,
`src/services/uploader.js` and `src/services/logger.js`.

Asynchronous JavaScript functions become functions in the monad `M`: a
computation reads the history of effects performed so far, and returns either a
value or a thrown error, together with the events it performed itself.  The
outside world (axios, the file system, the clock) is an `Env` of oracles that
answer from the history, so that every call may succeed or fail independently.

A computation of a handler that ends in a thrown error is a request that gets no
response.

Console output (`console.log`, `console.warn`, `console.error`) is not recorded.
The parameter `ids` is any value the query parser delivers; the other query
parameters are strings or missing.  The fields of an upstream document are
scalars, numbers are integers, and `genres`, when present, is an array of objects.
The body of a metadata upload is kept as the record it serialises.
-/

namespace Moonflix

/-! ## JavaScript values -/

/-- A thrown JavaScript error: its `message` and its optional `code`. -/
structure JsError where
  message : String
  code : Option String
  deriving DecidableEq

/-- Scalar JavaScript values, as found in the fields of an upstream document. -/
inductive JsVal where
  | undefined
  | null
  | bool (b : Bool)
  | num (n : Int)
  | str (s : String)
  deriving DecidableEq

namespace JsVal

/-- JavaScript truthiness (`!!v`). -/
def truthy : JsVal → Bool
  | undefined => false
  | null => false
  | bool b => b
  | num n => n != 0
  | str s => s != ""

/-- String conversion inside a template literal. -/
def toStr : JsVal → String
  | undefined => "undefined"
  | null => "null"
  | bool b => if b then "true" else "false"
  | num n => toString n
  | str s => s

/-- The operator `a || b`. -/
def or (a b : JsVal) : JsVal := if a.truthy then a else b

end JsVal

/-- Truthiness of a query parameter or environment variable: present and non-empty. -/
def truthy : Option String → Bool
  | none => false
  | some s => s != ""

/-- Template-literal conversion of a possibly undefined string. -/
def str : Option String → String
  | none => "undefined"
  | some s => s

/-! ## Documents and payloads -/

/-- One element of the upstream `genres` array. -/
structure Genre where
  name : JsVal
  deriving DecidableEq

/-- The body (`res.data`) of an upstream metadata response: the fields the
metadata client reads.  `genres` is `none` when undefined or null. -/
structure TmdbData where
  title : JsVal
  name : JsVal
  overview : JsVal
  genres : Option (List Genre)
  release_date : JsVal
  first_air_date : JsVal
  vote_average : JsVal
  original_language : JsVal
  poster_path : JsVal
  backdrop_path : JsVal
  air_date : JsVal
  season_number : JsVal
  episode_number : JsVal
  still_path : JsVal
  deriving DecidableEq

/-- The record returned by `fetchTMDBMetadata`. -/
structure ShowMetadata where
  title : JsVal
  description : JsVal
  genres : Option (List JsVal)
  release_date : JsVal
  average_vote : JsVal
  original_language : JsVal
  age_rating : String
  poster_path : JsVal
  backdrop_path : JsVal
  deriving DecidableEq

/-- The record returned by `fetchTMDBEpisodeMetadata`. -/
structure EpisodeMetadata where
  title : JsVal
  description : JsVal
  air_date : JsVal
  average_vote : JsVal
  season_number : JsVal
  episode_number : JsVal
  still_path : JsVal
  deriving DecidableEq

/-- A byte buffer. -/
abbrev Buffer := List Nat

/-- The second argument of `uploadToBunny`: `Buffer.from(JSON.stringify(m, null, 2))`
kept symbolic as the record it serialises, or the bytes of an image. -/
inductive Payload where
  | showJson (m : ShowMetadata)
  | episodeJson (m : EpisodeMetadata)
  | bytes (b : Buffer)
  | undefined
  deriving DecidableEq

/-! ## Effects -/

/-- What the program does to the outside world, together with the entry of each
service function. -/
inductive Event where
  | checkIfExists (path : String)
  | uploadToBunny (path : String)
  | fetchTMDBMetadata (id type : String)
  | fetchTMDBEpisodeMetadata (tvId season episode : String)
  | fetchImageWithRetry (path : JsVal)
  | logUpload (id type status : String)
  | axiosHead (url : String)
  | axiosGet (url : String)
  | axiosPut (url : String) (body : Payload) (accessKey : Option String)
  | appendFile (file entry : String)
  | sleep (ms : Nat)
  deriving DecidableEq

abbrev History := List Event

/-- The process environment and the behaviour of the external collaborators.
Each oracle sees the history of events before the call. -/
structure Env where
  CDN_BASE_URL : Option String
  TMDB_API_KEY : Option String
  BUNNY_STORAGE_REGION_URL : Option String
  BUNNY_API_KEY : Option String
  /-- The value of `path.join(__dirname, '../logs/uploads.log')`. -/
  logPath : String
  /-- The oracle `axios.head(url)`: the status of the response, or a rejection. -/
  head : History → String → Except JsError Nat
  /-- The oracle `axios.get(url, { timeout: 8000 })`: the response body
  (`none` when it is undefined), or a rejection. -/
  getJson : History → String → Except JsError (Option TmdbData)
  /-- The oracle `axios.get(url, { responseType: 'arraybuffer', timeout: 8000 })`. -/
  getBytes : History → String → Except JsError Buffer
  /-- The oracle `axios.put(url, body, { headers })`. -/
  put : History → String → Payload → Option String → Except JsError Unit
  /-- The oracle `fs.appendFile(file, entry)`. -/
  appendFile : History → String → String → Except JsError Unit
  /-- The oracle `new Date().toISOString()`. -/
  now : History → String

/-- An asynchronous computation: from the history so far to a result and the
events performed. -/
def M (α : Type) : Type := History → Except JsError α × List Event

namespace M

/-- The function `return a`. -/
def ret {α : Type} (a : α) : M α := fun _ => (.ok a, [])

/-- Sequencing (`await x; ...`): a thrown error skips the rest. -/
def andThen {α β : Type} (x : M α) (f : α → M β) : M β := fun h =>
  match x h with
  | (.ok a, es) =>
    match f a (h ++ es) with
    | (r, es') => (r, es ++ es')
  | (.error e, es) => (.error e, es)

/-- The statement `throw e`. -/
def raise {α : Type} (e : JsError) : M α := fun _ => (.error e, [])

/-- The statement `try { x } catch (err) { handler err }`. -/
def attempt {α : Type} (x : M α) (handler : JsError → M α) : M α := fun h =>
  match x h with
  | (.ok a, es) => (.ok a, es)
  | (.error e, es) =>
    match handler e (h ++ es) with
    | (r, es') => (r, es ++ es')

/-- Perform one event whose outcome the oracle decides. -/
def perform {α : Type} (ev : Event) (outcome : History → Except JsError α) : M α :=
  fun h => (outcome h, [ev])

/-- Record the entry of a service function. -/
def enter (ev : Event) : M Unit := fun _ => (.ok (), [ev])

end M

instance : Monad M where
  pure := M.ret
  bind := M.andThen

/-! ## services/tmdb.js -/

/-- The call `axios.get(url, { timeout: 8000 })`. -/
def axiosGetJson (env : Env) (url : String) : M (Option TmdbData) :=
  M.perform (.axiosGet url) (fun h => env.getJson h url)

/-- The timer `await new Promise(r => setTimeout(r, delay))`. -/
def sleep (delay : Nat) : M Unit := M.enter (.sleep delay)

/-- The loop of `fetchWithRetry` over the remaining values of `i`; running off the
end of the loop returns `undefined` (`none`). -/
def fetchWithRetryLoop (env : Env) (url : String) (retries delay : Nat) :
    List Nat → M (Option (Option TmdbData))
  | [] => pure none
  | i :: rest =>
    M.attempt
      (do
        let res ← axiosGetJson env url
        pure (some res))
      (fun err => do
        if (i : Int) = (retries : Int) - 1 then M.raise err else
        sleep delay
        fetchWithRetryLoop env url retries delay rest)

/-- The function `fetchWithRetry(url, retries, delay)`; the result is the axios
response body, wrapped in `some`. -/
def fetchWithRetry (env : Env) (url : String) (retries delay : Nat) :
    M (Option (Option TmdbData)) :=
  fetchWithRetryLoop env url retries delay (List.range retries)

/-- Reading a property of `res.data` when `res` or `res.data` is undefined. -/
def typeError (prop : String) : JsError :=
  { message := "Cannot read properties of undefined (reading '" ++ prop ++ "')", code := none }

/-- The function `fetchTMDBMetadata(id, type)`. -/
def fetchTMDBMetadata (env : Env) (id type : String) : M ShowMetadata := do
  M.enter (.fetchTMDBMetadata id type)
  let url := "https://api.themoviedb.org/3/" ++ type ++ "/" ++ id ++ "?api_key="
    ++ str env.TMDB_API_KEY ++ "&language=en-US"
  let res ← fetchWithRetry env url 3 1000
  match res with
  | none => M.raise (typeError "data")
  | some none => M.raise (typeError "title")
  | some (some data) =>
    pure {
      title := data.title.or data.name
      description := data.overview
      genres := data.genres.map (fun gs => gs.map (fun g => g.name))
      release_date := data.release_date.or data.first_air_date
      average_vote := data.vote_average
      original_language := data.original_language
      age_rating := "Not rated"
      poster_path := data.poster_path
      backdrop_path := data.backdrop_path }

/-- The function `fetchTMDBEpisodeMetadata(tvId, season, episode)`. -/
def fetchTMDBEpisodeMetadata (env : Env) (tvId season episode : String) :
    M EpisodeMetadata := do
  M.enter (.fetchTMDBEpisodeMetadata tvId season episode)
  let url := "https://api.themoviedb.org/3/tv/" ++ tvId ++ "/season/" ++ season
    ++ "/episode/" ++ episode ++ "?api_key=" ++ str env.TMDB_API_KEY ++ "&language=en-US"
  let res ← fetchWithRetry env url 3 1000
  match res with
  | none => M.raise (typeError "data")
  | some none => M.raise (typeError "name")
  | some (some ep) =>
    pure {
      title := ep.name
      description := ep.overview
      air_date := ep.air_date
      average_vote := ep.vote_average
      season_number := ep.season_number
      episode_number := ep.episode_number
      still_path := ep.still_path }

/-! ## services/uploader.js -/

/-- The function `checkIfExists(path)`. -/
def checkIfExists (env : Env) (path : String) : M Bool := do
  M.enter (.checkIfExists path)
  M.attempt
    (do
      let url := str env.CDN_BASE_URL ++ "/" ++ path
      let status ← M.perform (.axiosHead url) (fun h => env.head h url)
      pure (status == 200))
    (fun _ => pure false)

/-- The function `uploadToBunny(path, fileBuffer)`. -/
def uploadToBunny (env : Env) (path : String) (fileBuffer : Payload) : M Unit := do
  M.enter (.uploadToBunny path)
  let url := str env.BUNNY_STORAGE_REGION_URL ++ "/" ++ path
  M.perform (.axiosPut url fileBuffer env.BUNNY_API_KEY)
    (fun h => env.put h url fileBuffer env.BUNNY_API_KEY)

/-! ## services/logger.js -/

/-- The function `logUpload(id, type, status)`. -/
def logUpload (env : Env) (id type status : String) : M Unit := do
  M.enter (.logUpload id type status)
  fun h =>
    let entry := env.now h ++ " | " ++ type ++ " | ID: " ++ id ++ " | " ++ status ++ "\n"
    M.perform (.appendFile env.logPath entry) (fun h => env.appendFile h env.logPath entry) h

/-! ## index.js -/

/-- The call `axios.get(url, { responseType: 'arraybuffer', timeout: 8000 })`
followed by `Buffer.from(response.data)`. -/
def axiosGetBytes (env : Env) (url : String) : M Buffer :=
  M.perform (.axiosGet url) (fun h => env.getBytes h url)

/-- The loop of `fetchImageWithRetry` over the remaining values of `i`. -/
def fetchImageWithRetryLoop (env : Env) (url : String) (retries delay : Nat) :
    List Nat → M (Option Buffer)
  | [] => pure none
  | i :: rest =>
    M.attempt
      (do
        let response ← axiosGetBytes env url
        pure (some response))
      (fun err => do
        if (i : Int) = (retries : Int) - 1 then M.raise err else
        sleep delay
        fetchImageWithRetryLoop env url retries delay rest)

/-- The function `fetchImageWithRetry(path, retries, delay)`. -/
def fetchImageWithRetry (env : Env) (path : JsVal) (retries delay : Nat) :
    M (Option Buffer) := do
  M.enter (.fetchImageWithRetry path)
  if !path.truthy then M.raise { message := "Image path is undefined", code := none } else
  let url := "https://image.tmdb.org/t/p/original" ++ path.toStr
  fetchImageWithRetryLoop env url retries delay (List.range retries)

/-- The query of `/api/getMetadata`. -/
structure Query where
  id : Option String
  type : Option String
  season : Option String
  episode : Option String
  deriving DecidableEq

/-- A value of `req.query` as the query parser delivers it: missing, a string, an
array (a repeated key such as `?ids=1&ids=2`) or an object (a bracketed key). -/
inductive QueryVal where
  | undefined
  | str (s : String)
  | arr (items : List QueryVal)
  | obj (fields : List (String × QueryVal))

/-- JavaScript truthiness of a query value: every array and object is truthy. -/
def QueryVal.truthy : QueryVal → Bool
  | .undefined => false
  | .str s => s != ""
  | .arr _ => true
  | .obj _ => true

/-- The query of `/api/getBatchMetadata`. -/
structure BatchQuery where
  ids : QueryVal
  type : Option String

/-- The `metadata` field of a response body. -/
inductive Metadata where
  | movieOrTv (m : ShowMetadata)
  | episode (m : EpisodeMetadata)
  deriving DecidableEq

/-- The `backdropUrl` field of a response body: no such key, `null`, or a string. -/
inductive BackdropUrl where
  | absent
  | null
  | url (u : String)
  deriving DecidableEq

/-- A success body `{ from, metaUrl, imageUrl, backdropUrl, metadata }`;
`metadata` is `none` when the body has no such key. -/
structure Item where
  from_ : String
  metaUrl : String
  imageUrl : String
  backdropUrl : BackdropUrl
  metadata : Option Metadata
  deriving DecidableEq

/-- One element of the batch `results` array: `{ id, ...item }` or
`{ id, error: true, message }`. -/
inductive BatchEntry where
  | item (id : String) (body : Item)
  | error (id : String) (message : String)
  deriving DecidableEq

/-- The `id` field of a batch entry. -/
def BatchEntry.id : BatchEntry → String
  | .item id _ => id
  | .error id _ => id

/-- A JSON response body. -/
inductive Body where
  | error (error : String)
  | item (body : Item)
  | results (results : List BatchEntry)
  deriving DecidableEq

/-- What the handler sends: `res.status(status).json(body)`. -/
structure Response where
  status : Nat
  body : Body
  deriving DecidableEq

/-- The test `list.includes(v)` on a possibly undefined string. -/
def includes (list : List String) : Option String → Bool
  | none => false
  | some v => list.contains v

/-- The argument `imgBuffer` of an image upload. -/
def Payload.ofBuffer : Option Buffer → Payload
  | none => .undefined
  | some b => .bytes b

/-- The handler of `GET /api/getMetadata`. -/
def getMetadata (env : Env) (query : Query) : M Response :=
  if !truthy query.id || !includes ["movie", "tv"] query.type then
    pure { status := 400, body := .error "Invalid or missing \"id\" or \"type\"" }
  else
    let id := str query.id
    let type := str query.type
    let season := str query.season
    let episode := str query.episode
    M.attempt
      (do
        let cdnBase := str env.CDN_BASE_URL
        if query.type == some "tv" && truthy query.season && truthy query.episode then
          let metaPath := "metadata/episode_" ++ id ++ "_s" ++ season ++ "_e" ++ episode ++ ".json"
          let imagePath :=
            "images/episode/episode_" ++ id ++ "_s" ++ season ++ "_e" ++ episode ++ ".jpg"
          let metaUrl := cdnBase ++ "/" ++ metaPath
          let imageUrl := cdnBase ++ "/" ++ imagePath
          let found ← checkIfExists env metaPath
          if found then
            pure { status := 200, body := .item {
                from_ := "cdn", metaUrl := metaUrl, imageUrl := imageUrl,
                backdropUrl := .absent, metadata := none } }
          else
            let metadata ← fetchTMDBEpisodeMetadata env id season episode
            uploadToBunny env metaPath (.episodeJson metadata)
            if metadata.still_path.truthy then
              (do
                let imgBuffer ← fetchImageWithRetry env metadata.still_path 3 1000
                uploadToBunny env imagePath (.ofBuffer imgBuffer))
            logUpload env id ("episode " ++ season ++ "-" ++ episode) "uploaded"
            pure { status := 200, body := .item {
                from_ := "tmdb", metaUrl := metaUrl, imageUrl := imageUrl,
                backdropUrl := .absent, metadata := some (.episode metadata) } }
        else
          let metaPath := "metadata/" ++ type ++ "_" ++ id ++ ".json"
          let posterPath := "images/poster/" ++ type ++ "_" ++ id ++ ".jpg"
          let backdropPath := "images/backdrop/" ++ type ++ "_" ++ id ++ ".jpg"
          let metaUrl := cdnBase ++ "/" ++ metaPath
          let imageUrl := cdnBase ++ "/" ++ posterPath
          let backdropUrl := cdnBase ++ "/" ++ backdropPath
          let found ← checkIfExists env metaPath
          if found then
            pure { status := 200, body := .item {
                from_ := "cdn", metaUrl := metaUrl, imageUrl := imageUrl,
                backdropUrl := .url backdropUrl, metadata := none } }
          else
            let metadata ← fetchTMDBMetadata env id type
            uploadToBunny env metaPath (.showJson metadata)
            if metadata.poster_path.truthy then
              M.attempt
                (do
                  let posterBuffer ← fetchImageWithRetry env metadata.poster_path 3 1000
                  uploadToBunny env posterPath (.ofBuffer posterBuffer))
                (fun _ => pure ())
            let uploadedBackdrop ←
              if metadata.backdrop_path.truthy then
                M.attempt
                  (do
                    let backdropBuffer ← fetchImageWithRetry env metadata.backdrop_path 3 1000
                    uploadToBunny env backdropPath (.ofBuffer backdropBuffer)
                    pure true)
                  (fun _ => pure false)
              else pure false
            logUpload env id type "uploaded"
            pure { status := 200, body := .item {
                from_ := "tmdb", metaUrl := metaUrl, imageUrl := imageUrl,
                backdropUrl := if uploadedBackdrop then .url backdropUrl else .null,
                metadata := some (.movieOrTv metadata) } })
      (fun _ => pure { status := 500, body := .error "Failed to fetch and upload data." })

/-- ECMAScript white space and line terminators, the characters `trim` removes. -/
def isWhiteSpace (c : Char) : Bool :=
  let n := c.toNat
  n == 0x9 || n == 0xA || n == 0xB || n == 0xC || n == 0xD || n == 0x20 || n == 0xA0
    || n == 0x1680 || (0x2000 ≤ n && n ≤ 0x200A) || n == 0x2028 || n == 0x2029
    || n == 0x202F || n == 0x205F || n == 0x3000 || n == 0xFEFF

/-- The method `s.split(sep)` for a one-character separator, on character lists. -/
def splitChars (sep : Char) : List Char → List (List Char)
  | [] => [[]]
  | c :: cs =>
    if c = sep then [] :: splitChars sep cs
    else
      match splitChars sep cs with
      | [] => [[c]]
      | piece :: pieces => (c :: piece) :: pieces

/-- The method `s.split(',')`. -/
def split (s : String) : List String := (splitChars ',' s.data).map String.mk

/-- The method `s.trim()`. -/
def trim (s : String) : String :=
  String.mk ((s.data.dropWhile isWhiteSpace).reverse.dropWhile isWhiteSpace).reverse

/-- The expression `ids.split(',').map(i => i.trim()).filter(Boolean)`. -/
def idList (ids : String) : List String :=
  ((split ids).map trim).filter (fun i => i != "")

/-- The join `Promise.all(promises)`, with the promises run one after the other:
the results in order, or the first rejection. -/
def promiseAll {α : Type} : List (M α) → M (List α)
  | [] => pure []
  | p :: ps => do
    let r ← p
    let rs ← promiseAll ps
    pure (r :: rs)

/-- The callback of `idList.map` in the batch handler: the work for one `id`. -/
def batchItem (env : Env) (cdnBase type id : String) : M BatchEntry :=
  let metaPath := "metadata/" ++ type ++ "_" ++ id ++ ".json"
  let posterPath := "images/poster/" ++ type ++ "_" ++ id ++ ".jpg"
  let backdropPath := "images/backdrop/" ++ type ++ "_" ++ id ++ ".jpg"
  let metaUrl := cdnBase ++ "/" ++ metaPath
  let imageUrl := cdnBase ++ "/" ++ posterPath
  let backdropUrl := cdnBase ++ "/" ++ backdropPath
  M.attempt
    (do
      let found ← checkIfExists env metaPath
      if found then
        pure (.item id {
            from_ := "cdn", metaUrl := metaUrl, imageUrl := imageUrl,
            backdropUrl := .url backdropUrl, metadata := none })
      else
        let metadata ← fetchTMDBMetadata env id type
        uploadToBunny env metaPath (.showJson metadata)
        if metadata.poster_path.truthy then
          M.attempt
            (do
              let posterBuffer ← fetchImageWithRetry env metadata.poster_path 3 1000
              uploadToBunny env posterPath (.ofBuffer posterBuffer))
            (fun _ => pure ())
        let uploadedBackdrop ←
          if metadata.backdrop_path.truthy then
            M.attempt
              (do
                let backdropBuffer ← fetchImageWithRetry env metadata.backdrop_path 3 1000
                uploadToBunny env backdropPath (.ofBuffer backdropBuffer)
                pure true)
              (fun _ => pure false)
          else pure false
        logUpload env id type "uploaded"
        pure (.item id {
            from_ := "tmdb", metaUrl := metaUrl, imageUrl := imageUrl,
            backdropUrl := if uploadedBackdrop then .url backdropUrl else .null,
            metadata := some (.movieOrTv metadata) }))
    (fun err => pure (.error id err.message))

/-- The handler of `GET /api/getBatchMetadata`.  Only a string has the method
`split`: for an array or an object `ids.split(',')` throws a `TypeError` outside
every `try`, the promise of the handler rejects and no response is sent. -/
def getBatchMetadata (env : Env) (query : BatchQuery) : M Response :=
  if !query.ids.truthy || !includes ["movie", "tv"] query.type then
    pure { status := 400, body := .error "Missing or invalid \"ids\" or \"type\"" }
  else do
    let type := str query.type
    let cdnBase := str env.CDN_BASE_URL
    match query.ids with
    | .str ids =>
      let idList := idList ids
      let results ← promiseAll (idList.map (batchItem env cdnBase type))
      pure { status := 200, body := .results results }
    | _ => M.raise { message := "ids.split is not a function", code := none }

/-! ## Auxiliary definitions -/

/-! ### Observations on the events of a run -/

/-- The entries of service functions, as opposed to the primitive effects. -/
def Event.isCall : Event → Bool
  | .checkIfExists _ => true
  | .uploadToBunny _ => true
  | .fetchTMDBMetadata _ _ => true
  | .fetchTMDBEpisodeMetadata _ _ _ => true
  | .fetchImageWithRetry _ => true
  | .logUpload _ _ _ => true
  | _ => false

/-- The remote request of the retry loops, `axios.get`. -/
def Event.isRemoteGet : Event → Bool
  | .axiosGet _ => true
  | _ => false

/-- A call of `fetchTMDBMetadata` or `fetchTMDBEpisodeMetadata`. -/
def Event.isMetadataFetch : Event → Bool
  | .fetchTMDBMetadata _ _ => true
  | .fetchTMDBEpisodeMetadata _ _ _ => true
  | _ => false

/-- A call of `fetchImageWithRetry`. -/
def Event.isImageFetch : Event → Bool
  | .fetchImageWithRetry _ => true
  | _ => false

/-- A call of `fetchImageWithRetry` with the given image reference. -/
def Event.isImageFetchOf (ref : JsVal) : Event → Bool
  | .fetchImageWithRetry path => path == ref
  | _ => false

/-- A call of `uploadToBunny`. -/
def Event.isUpload : Event → Bool
  | .uploadToBunny _ => true
  | _ => false

/-- A call of `uploadToBunny` with the given path. -/
def Event.isUploadTo (path : String) : Event → Bool
  | .uploadToBunny p => p == path
  | _ => false

/-- The service calls of a run, in order. -/
def calls (events : List Event) : List Event := events.filter Event.isCall

/-- The events of `j` failed attempts of a retry loop, each followed by the delay. -/
def failedAttempts (url : String) (delay : Nat) : Nat → List Event
  | 0 => []
  | j + 1 => .axiosGet url :: .sleep delay :: failedAttempts url delay j

/-! ### The blocks of the handlers

The handlers above follow the source line by line.  The definitions below name
their blocks; `getMetadata_episode`, `getMetadata_show` and `batchItem_run` show that
the handlers are these blocks put together. -/

/-- The loop shared by `fetchWithRetry` and `fetchImageWithRetry`, over any remote
call. -/
def retryLoop {α : Type} (remote : M α) (retries delay : Nat) : List Nat → M (Option α)
  | [] => pure none
  | i :: rest =>
    M.attempt
      (do
        let res ← remote
        pure (some res))
      (fun err => do
        if (i : Int) = (retries : Int) - 1 then M.raise err else
        sleep delay
        retryLoop remote retries delay rest)

/-- The poster block: `if (ref) { try { fetch; upload } catch { } }`. -/
def posterStep (env : Env) (ref : JsVal) (path : String) : M Unit :=
  if ref.truthy then
    M.attempt
      (do
        let posterBuffer ← fetchImageWithRetry env ref 3 1000
        uploadToBunny env path (.ofBuffer posterBuffer))
      (fun _ => pure ())
  else pure ()

/-- The backdrop block, whose value is the flag `uploadedBackdrop`. -/
def backdropStep (env : Env) (ref : JsVal) (path : String) : M Bool :=
  if ref.truthy then
    M.attempt
      (do
        let backdropBuffer ← fetchImageWithRetry env ref 3 1000
        uploadToBunny env path (.ofBuffer backdropBuffer)
        pure true)
      (fun _ => pure false)
  else pure false

/-- The still block of the episode flow: `if (ref) { fetch; upload }`, not guarded. -/
def stillStep (env : Env) (ref : JsVal) (path : String) : M Unit :=
  if ref.truthy then
    (do
      let imgBuffer ← fetchImageWithRetry env ref 3 1000
      uploadToBunny env path (.ofBuffer imgBuffer))
  else pure ()

/-- The movie/tv flow after a negative existence check, up to the response body. -/
def showMiss (env : Env) (cdnBase id type : String) : M Item := do
  let metadata ← fetchTMDBMetadata env id type
  uploadToBunny env ("metadata/" ++ type ++ "_" ++ id ++ ".json") (.showJson metadata)
  posterStep env metadata.poster_path ("images/poster/" ++ type ++ "_" ++ id ++ ".jpg")
  let uploadedBackdrop ←
    backdropStep env metadata.backdrop_path ("images/backdrop/" ++ type ++ "_" ++ id ++ ".jpg")
  logUpload env id type "uploaded"
  pure {
    from_ := "tmdb"
    metaUrl := cdnBase ++ "/" ++ ("metadata/" ++ type ++ "_" ++ id ++ ".json")
    imageUrl := cdnBase ++ "/" ++ ("images/poster/" ++ type ++ "_" ++ id ++ ".jpg")
    backdropUrl :=
      if uploadedBackdrop then
        .url (cdnBase ++ "/" ++ ("images/backdrop/" ++ type ++ "_" ++ id ++ ".jpg"))
      else .null
    metadata := some (.movieOrTv metadata) }

/-- The movie/tv flow from the existence check on, up to the response body. -/
def showFlow (env : Env) (cdnBase id type : String) : M Item := do
  let found ← checkIfExists env ("metadata/" ++ type ++ "_" ++ id ++ ".json")
  if found then
    pure {
      from_ := "cdn"
      metaUrl := cdnBase ++ "/" ++ ("metadata/" ++ type ++ "_" ++ id ++ ".json")
      imageUrl := cdnBase ++ "/" ++ ("images/poster/" ++ type ++ "_" ++ id ++ ".jpg")
      backdropUrl := .url (cdnBase ++ "/" ++ ("images/backdrop/" ++ type ++ "_" ++ id ++ ".jpg"))
      metadata := none }
  else showMiss env cdnBase id type

/-- The episode flow after a negative existence check, up to the response body. -/
def episodeMiss (env : Env) (cdnBase id season episode : String) : M Item := do
  let metadata ← fetchTMDBEpisodeMetadata env id season episode
  uploadToBunny env ("metadata/episode_" ++ id ++ "_s" ++ season ++ "_e" ++ episode ++ ".json")
    (.episodeJson metadata)
  stillStep env metadata.still_path
    ("images/episode/episode_" ++ id ++ "_s" ++ season ++ "_e" ++ episode ++ ".jpg")
  logUpload env id ("episode " ++ season ++ "-" ++ episode) "uploaded"
  pure {
    from_ := "tmdb"
    metaUrl := cdnBase ++ "/"
      ++ ("metadata/episode_" ++ id ++ "_s" ++ season ++ "_e" ++ episode ++ ".json")
    imageUrl := cdnBase ++ "/"
      ++ ("images/episode/episode_" ++ id ++ "_s" ++ season ++ "_e" ++ episode ++ ".jpg")
    backdropUrl := .absent
    metadata := some (.episode metadata) }

/-- The episode flow from the existence check on, up to the response body. -/
def episodeFlow (env : Env) (cdnBase id season episode : String) : M Item := do
  let found ← checkIfExists env
    ("metadata/episode_" ++ id ++ "_s" ++ season ++ "_e" ++ episode ++ ".json")
  if found then
    pure {
      from_ := "cdn"
      metaUrl := cdnBase ++ "/"
        ++ ("metadata/episode_" ++ id ++ "_s" ++ season ++ "_e" ++ episode ++ ".json")
      imageUrl := cdnBase ++ "/"
        ++ ("images/episode/episode_" ++ id ++ "_s" ++ season ++ "_e" ++ episode ++ ".jpg")
      backdropUrl := .absent
      metadata := none }
  else episodeMiss env cdnBase id season episode

/-- The response of the single route for the result of a flow. -/
def respond : Except JsError Item → Response
  | .ok item => { status := 200, body := .item item }
  | .error _ => { status := 500, body := .error "Failed to fetch and upload data." }

/-- The entry of the batch route for the result of a flow. -/
def entryOf (id : String) : Except JsError Item → BatchEntry
  | .ok item => .item id item
  | .error err => .error id err.message

/-- The request is rejected by the validation of the single route. -/
def Query.invalid (query : Query) : Bool :=
  !truthy query.id || !includes ["movie", "tv"] query.type

/-- The request takes the episode flow. -/
def Query.isEpisode (query : Query) : Bool :=
  query.type == some "tv" && truthy query.season && truthy query.episode

/-- The service calls of an image block run at history `h`: none for a falsy
reference; otherwise the fetch, followed by the upload when the fetch succeeded. -/
def imageCalls (env : Env) (ref : JsVal) (path : String) (h : History) : List Event :=
  if ref.truthy then
    .fetchImageWithRetry ref ::
      (match (fetchImageWithRetry env ref 3 1000 h).1 with
        | .ok _ => [.uploadToBunny path]
        | .error _ => [])
  else []

/-- The image of a block run at history `h` was fetched and uploaded. -/
def stored (env : Env) (ref : JsVal) (path : String) (h : History) : Bool :=
  ref.truthy &&
    match fetchImageWithRetry env ref 3 1000 h with
    | (.ok buffer, es) =>
      (match (uploadToBunny env path (.ofBuffer buffer) (h ++ es)).1 with
        | .ok _ => true
        | .error _ => false)
    | (.error _, _) => false

/-! ### The words of the specification -/

/-- The string `s` is the `items` joined by commas, and no item contains a comma:
`items` are the comma-separated items of `s`. -/
def CommaItems (items : List String) (s : String) : Prop :=
  items ≠ [] ∧ (∀ item ∈ items, ',' ∉ item.data) ∧ ",".intercalate items = s

/-- The string `t` is `s` without its leading and trailing white space: `s` is `t`
between two runs of white space, and `t` neither starts nor ends with white space. -/
def IsTrimOf (t s : String) : Prop :=
  ∃ pre post : List Char, s.data = pre ++ t.data ++ post ∧
    (∀ c ∈ pre, isWhiteSpace c = true) ∧ (∀ c ∈ post, isWhiteSpace c = true) ∧
    (∀ c, t.data.head? = some c → isWhiteSpace c = false) ∧
    (∀ c, t.data.getLast? = some c → isWhiteSpace c = false)

/-- The input identifiers of `ids`: its comma-separated items, each trimmed, without
those that are blank, in order. -/
def Identifiers (ids : String) (identifiers : List String) : Prop :=
  ∃ items trimmed, CommaItems items ids ∧ List.Forall₂ IsTrimOf trimmed items ∧
    identifiers = trimmed.filter (fun t => t != "")

/-- The characters that follow the first item of a comma-separated string. -/
def commaTail : List String → List Char
  | [] => []
  | item :: items => ',' :: item.data ++ commaTail items

/-- The persisted layout in the words of the specification. -/
def Layout.metadata (type id : String) : String :=
  "metadata/" ++ type ++ "_" ++ id ++ ".json"

/-- The poster key of the persisted layout. -/
def Layout.poster (type id : String) : String :=
  "images/poster/" ++ type ++ "_" ++ id ++ ".jpg"

/-- The backdrop key of the persisted layout. -/
def Layout.backdrop (type id : String) : String :=
  "images/backdrop/" ++ type ++ "_" ++ id ++ ".jpg"

/-- The episode metadata key of the persisted layout. -/
def Layout.episodeMetadata (id season episode : String) : String :=
  "metadata/episode_" ++ id ++ "_s" ++ season ++ "_e" ++ episode ++ ".json"

/-- The episode still key of the persisted layout. -/
def Layout.episodeImage (id season episode : String) : String :=
  "images/episode/episode_" ++ id ++ "_s" ++ season ++ "_e" ++ episode ++ ".jpg"

/-- A returned URL: the CDN base, a slash, and the path. -/
def Layout.url (cdnBase path : String) : String :=
  cdnBase ++ "/" ++ path

/-- The URL `fetchImageWithRetry` requests for an image reference. -/
def imageUrlOf (path : JsVal) : String :=
  "https://image.tmdb.org/t/p/original" ++ path.toStr

/-! ### Sample worlds and requests -/

/-- An error that carries a message only. -/
def failure (message : String) : JsError := { message := message, code := none }

/-- The error of a remote call, numbered by the attempts already in the history. -/
def attemptError (h : History) : JsError :=
  match h.countP Event.isRemoteGet with
  | 0 => failure "attempt 1 failed"
  | 1 => failure "attempt 2 failed"
  | _ => failure "attempt 3 failed"

/-- An upstream document with a poster, a backdrop and a still. -/
def sampleData : TmdbData :=
  { title := .str "Heat", name := .undefined, overview := .str "A heist.",
    genres := some [{ name := .str "Crime" }], release_date := .str "1995-12-15",
    first_air_date := .undefined, vote_average := .num 8, original_language := .str "en",
    poster_path := .str "/p.jpg", backdrop_path := .str "/b.jpg", air_date := .undefined,
    season_number := .num 1, episode_number := .num 2, still_path := .str "/s.jpg" }

/-- A world where nothing is stored yet and every collaborator works. -/
def envHealthy : Env :=
  { CDN_BASE_URL := some "https://cdn.example", TMDB_API_KEY := some "key",
    BUNNY_STORAGE_REGION_URL := some "https://storage.example", BUNNY_API_KEY := some "secret",
    logPath := "logs/uploads.log",
    head := fun _ _ => .error (failure "Request failed with status code 404"),
    getJson := fun _ _ => .ok (some sampleData),
    getBytes := fun _ _ => .ok [255, 216],
    put := fun _ _ _ _ => .ok (),
    appendFile := fun _ _ _ => .ok (),
    now := fun _ => "2024-01-01T00:00:00.000Z" }

/-- A world where every object is already stored. -/
def envStored : Env :=
  { envHealthy with head := fun _ _ => .ok 200 }

/-- A world where every remote request fails. -/
def envDown : Env :=
  { envHealthy with
    getJson := fun h _ => .error (attemptError h),
    getBytes := fun h _ => .error (attemptError h),
    put := fun _ _ _ _ => .error (failure "Network Error") }

/-- A world where the log file cannot be written. -/
def envNoLog : Env :=
  { envHealthy with
    appendFile := fun _ _ _ => .error (failure "ENOENT: no such file or directory") }

/-- A world where the image host is down and the log file cannot be written. -/
def envNoImagesNoLog : Env :=
  { envNoLog with getBytes := fun h _ => .error (attemptError h) }

/-- A world where the image host is down. -/
def envNoImages : Env :=
  { envHealthy with getBytes := fun h _ => .error (attemptError h) }

/-- The record `fetchTMDBMetadata` builds from `sampleData`. -/
def sampleMetadata : ShowMetadata :=
  { title := .str "Heat", description := .str "A heist.", genres := some [.str "Crime"],
    release_date := .str "1995-12-15", average_vote := .num 8, original_language := .str "en",
    age_rating := "Not rated", poster_path := .str "/p.jpg", backdrop_path := .str "/b.jpg" }

/-- The record `fetchTMDBEpisodeMetadata` builds from `sampleData`. -/
def sampleEpisode : EpisodeMetadata :=
  { title := .undefined, description := .str "A heist.", air_date := .undefined,
    average_vote := .num 8, season_number := .num 1, episode_number := .num 2,
    still_path := .str "/s.jpg" }

/-- A movie request. -/
def movie603 : Query :=
  { id := some "603", type := some "movie", season := none, episode := none }

/-- An episode request. -/
def episode1399 : Query :=
  { id := some "1399", type := some "tv", season := some "1", episode := some "2" }

/-- The history of the request `movie603`, from an empty history, after the
existence check. -/
def probed603 (env : Env) : History :=
  (checkIfExists env "metadata/movie_603.json" []).2

/-- The history of the request `movie603` after the metadata fetch. -/
def fetched603 (env : Env) : History :=
  probed603 env ++ (fetchTMDBMetadata env "603" "movie" (probed603 env)).2

/-- The history of the request `movie603` after the metadata upload. -/
def uploaded603 (env : Env) : History :=
  fetched603 env ++
    (uploadToBunny env "metadata/movie_603.json" (.showJson sampleMetadata) (fetched603 env)).2

/-- The history of the request `episode1399`, from an empty history, after the
metadata upload. -/
def uploaded1399 (env : Env) : History :=
  (checkIfExists env "metadata/episode_1399_s1_e2.json" []).2 ++
    (fetchTMDBEpisodeMetadata env "1399" "1" "2"
      (checkIfExists env "metadata/episode_1399_s1_e2.json" []).2).2 ++
    (uploadToBunny env "metadata/episode_1399_s1_e2.json" (.episodeJson sampleEpisode)
      ((checkIfExists env "metadata/episode_1399_s1_e2.json" []).2 ++
        (fetchTMDBEpisodeMetadata env "1399" "1" "2"
          (checkIfExists env "metadata/episode_1399_s1_e2.json" []).2).2)).2

/-- A movie request that also carries `season` and `episode`. -/
def movie603Episode : Query :=
  { id := some "603", type := some "movie", season := some "1", episode := some "2" }

/-- The metadata path a run resolves to: the argument of its first service call,
the existence check. -/
def probedPath (events : List Event) : Option String :=
  match calls events with
  | .checkIfExists path :: _ => some path
  | _ => none

/-- An episode request whose `id` contains the season separator. -/
def episodeA : Query :=
  { id := some "1_s2", type := some "tv", season := some "3", episode := some "4" }

/-- An episode request whose `season` contains the season separator. -/
def episodeB : Query :=
  { id := some "1", type := some "tv", season := some "2_s3", episode := some "4" }

/-- A batch request with a repeated key: `?ids=1&ids=2&type=movie`. -/
def batchRepeated : BatchQuery :=
  { ids := .arr [.str "1", .str "2"], type := some "movie" }

/-! ## Running computations -/

section Run

variable {α β : Type}

theorem pure_run (a : α) (h : History) : (pure a : M α) h = (.ok a, []) := rfl

theorem bind_run (x : M α) (f : α → M β) (h : History) :
    (x >>= f) h = M.andThen x f h := rfl

theorem bind_ok {x : M α} {f : α → M β} {h : History} {a : α} {es : List Event}
    (hx : x h = (.ok a, es)) :
    (x >>= f) h = ((f a (h ++ es)).1, es ++ (f a (h ++ es)).2) := by
  simp only [bind_run, M.andThen, hx]

theorem bind_error {x : M α} {f : α → M β} {h : History} {e : JsError} {es : List Event}
    (hx : x h = (.error e, es)) : (x >>= f) h = (.error e, es) := by
  simp only [bind_run, M.andThen, hx]

end Run

/-! ## The leaves -/

theorem checkIfExists_run (env : Env) (path : String) (h : History) :
    checkIfExists env path h =
      (.ok (match env.head (h ++ [.checkIfExists path]) (str env.CDN_BASE_URL ++ "/" ++ path) with
            | .ok status => status == 200
            | .error _ => false),
       [.checkIfExists path, .axiosHead (str env.CDN_BASE_URL ++ "/" ++ path)]) := by
  simp only [checkIfExists, bind_run, M.andThen, M.enter, M.attempt, M.perform]
  cases env.head (h ++ [.checkIfExists path]) (str env.CDN_BASE_URL ++ "/" ++ path) <;> rfl

theorem uploadToBunny_run (env : Env) (path : String) (body : Payload) (h : History) :
    uploadToBunny env path body h =
      (env.put (h ++ [.uploadToBunny path]) (str env.BUNNY_STORAGE_REGION_URL ++ "/" ++ path)
          body env.BUNNY_API_KEY,
       [.uploadToBunny path,
        .axiosPut (str env.BUNNY_STORAGE_REGION_URL ++ "/" ++ path) body env.BUNNY_API_KEY]) := by
  rfl

theorem logUpload_run (env : Env) (id type status : String) (h : History) :
    ∃ entry, logUpload env id type status h =
      (env.appendFile (h ++ [.logUpload id type status]) env.logPath entry,
       [.logUpload id type status, .appendFile env.logPath entry]) :=
  ⟨_, rfl⟩

/-! ## The retry loops -/

theorem fetchWithRetryLoop_eq (env : Env) (url : String) (retries delay : Nat)
    (is : List Nat) :
    fetchWithRetryLoop env url retries delay is =
      retryLoop (axiosGetJson env url) retries delay is := by
  induction is with
  | nil => rfl
  | cons i rest ih => simp only [fetchWithRetryLoop, retryLoop, ih]

theorem fetchImageWithRetryLoop_eq (env : Env) (url : String) (retries delay : Nat)
    (is : List Nat) :
    fetchImageWithRetryLoop env url retries delay is =
      retryLoop (axiosGetBytes env url) retries delay is := by
  induction is with
  | nil => rfl
  | cons i rest ih => simp only [fetchImageWithRetryLoop, retryLoop, ih]

section RetryLoop

variable {α : Type} (remote : M α) (url : String) (retries delay : Nat)

theorem retryLoop_fail :
    ∀ (m i : Nat) (h : History) (errs : Nat → JsError), i + m = retries → 0 < m →
      (∀ j, j < m →
        remote (h ++ failedAttempts url delay j) = (.error (errs j), [.axiosGet url])) →
      retryLoop remote retries delay (List.range' i m) h =
        (.error (errs (m - 1)), failedAttempts url delay (m - 1) ++ [.axiosGet url]) := by
  intro m
  induction m with
  | zero => intro i h _ _ hm; omega
  | succ m ih =>
    intro i h errs him _ hfail
    have h0 := hfail 0 (Nat.succ_pos m)
    simp only [failedAttempts, List.append_nil] at h0
    by_cases hlast : (i : Int) = (retries : Int) - 1
    · have hm : m = 0 := by omega
      subst hm
      simp [List.range'_succ, retryLoop, M.attempt, bind_run, M.andThen, h0, hlast, M.raise,
        failedAttempts]
    · have hm : 0 < m := by omega
      have hrec := ih (i + 1) (h ++ [.axiosGet url, .sleep delay]) (fun j => errs (j + 1))
        (by omega) hm
        (fun j hj => by
          have := hfail (j + 1) (by omega)
          simpa [failedAttempts] using this)
      obtain ⟨m', rfl⟩ : ∃ m', m = m' + 1 := ⟨m - 1, by omega⟩
      simp only [List.append_assoc, List.singleton_append] at hrec
      simp [List.range'_succ, retryLoop, M.attempt, bind_run, M.andThen, h0, hlast, sleep,
        M.enter, failedAttempts] at hrec ⊢
      simp [hrec]

theorem retryLoop_success :
    ∀ (k m i : Nat) (h : History) (res : α), i + m = retries → k < m →
      (∀ j, j < k →
        ∃ e, remote (h ++ failedAttempts url delay j) = (.error e, [.axiosGet url])) →
      remote (h ++ failedAttempts url delay k) = (.ok res, [.axiosGet url]) →
      retryLoop remote retries delay (List.range' i m) h =
        (.ok (some res), failedAttempts url delay k ++ [.axiosGet url]) := by
  intro k
  induction k with
  | zero =>
    intro m i h res _ hm _ hok
    obtain ⟨m', rfl⟩ : ∃ m', m = m' + 1 := ⟨m - 1, by omega⟩
    simp only [failedAttempts, List.append_nil] at hok
    simp [List.range'_succ, retryLoop, M.attempt, bind_run, M.andThen, hok, failedAttempts,
      M.ret, pure_run]
  | succ k ih =>
    intro m i h res him hm hfail hok
    obtain ⟨m', rfl⟩ : ∃ m', m = m' + 1 := ⟨m - 1, by omega⟩
    obtain ⟨e0, h0⟩ := hfail 0 (Nat.succ_pos k)
    simp only [failedAttempts, List.append_nil] at h0
    have hlast : ¬ (i : Int) = (retries : Int) - 1 := by omega
    have hrec := ih m' (i + 1) (h ++ [.axiosGet url, .sleep delay]) res (by omega) (by omega)
      (fun j hj => by
        obtain ⟨e, he⟩ := hfail (j + 1) (by omega)
        exact ⟨e, by simpa [failedAttempts] using he⟩)
      (by simpa [failedAttempts] using hok)
    simp only [List.append_assoc, List.singleton_append] at hrec
    simp [List.range'_succ, retryLoop, M.attempt, bind_run, M.andThen, h0, hlast, sleep,
      M.enter, failedAttempts] at hrec ⊢
    simp [hrec]

theorem retryLoop_quiet (hremote : ∀ h, ∀ e ∈ (remote h).2, e.isCall = false) :
    ∀ (is : List Nat) (h : History),
      ∀ e ∈ (retryLoop remote retries delay is h).2, e.isCall = false := by
  intro is
  induction is with
  | nil => intro h e he; simp [retryLoop, pure_run] at he
  | cons i rest ih =>
    intro h e he
    simp only [retryLoop, M.attempt, bind_run, M.andThen] at he
    rcases hx : remote h with ⟨r, es⟩
    have hes := hremote h
    rw [hx] at hes he
    cases r with
    | ok a =>
      simp only [pure_run, M.ret, List.append_nil] at he
      exact hes e he
    | error err =>
      by_cases hlast : (i : Int) = (retries : Int) - 1
      · simp only [hlast, if_true, M.raise, List.append_nil] at he
        exact hes e he
      · simp only [hlast, if_false, sleep, M.enter, List.mem_append, List.mem_cons,
          List.append_assoc, bind_run, M.andThen] at he
        rcases he with he | he
        · exact hes e he
        · rcases he with (he | he) | he
          · subst he; rfl
          · simp at he
          · exact ih _ e he

end RetryLoop

theorem countP_failedAttempts (url : String) (delay j : Nat) :
    (failedAttempts url delay j).countP Event.isRemoteGet = j := by
  induction j with
  | zero => rfl
  | succ j ih => simp [failedAttempts, Event.isRemoteGet, ih]

theorem axiosGetJson_quiet (env : Env) (url : String) (h : History) :
    ∀ e ∈ (axiosGetJson env url h).2, e.isCall = false := by
  intro e he
  simp only [axiosGetJson, M.perform, List.mem_singleton] at he
  subst he; rfl

theorem axiosGetBytes_quiet (env : Env) (url : String) (h : History) :
    ∀ e ∈ (axiosGetBytes env url h).2, e.isCall = false := by
  intro e he
  simp only [axiosGetBytes, M.perform, List.mem_singleton] at he
  subst he; rfl

theorem calls_append (xs ys : List Event) : calls (xs ++ ys) = calls xs ++ calls ys := by
  simp [calls]

theorem calls_nil : calls [] = [] := rfl

theorem calls_cons (e : Event) (es : List Event) :
    calls (e :: es) = if e.isCall then e :: calls es else calls es := by
  simp only [calls, List.filter_cons]

theorem calls_quiet {es : List Event} (hes : ∀ e ∈ es, e.isCall = false) : calls es = [] := by
  simp only [calls, List.filter_eq_nil_iff]
  intro e he
  simp [hes e he]

theorem calls_fetchWithRetry (env : Env) (url : String) (retries delay : Nat) (h : History) :
    calls (fetchWithRetry env url retries delay h).2 = [] := by
  rw [fetchWithRetry, fetchWithRetryLoop_eq]
  exact calls_quiet (retryLoop_quiet _ _ _ (axiosGetJson_quiet env url) _ h)

theorem calls_fetchTMDBMetadata (env : Env) (id type : String) (h : History) :
    calls (fetchTMDBMetadata env id type h).2 = [.fetchTMDBMetadata id type] := by
  simp only [fetchTMDBMetadata, bind_run, M.andThen, M.enter]
  generalize hu : "https://api.themoviedb.org/3/" ++ type ++ "/" ++ id ++ "?api_key="
    ++ str env.TMDB_API_KEY ++ "&language=en-US" = url
  have hq := calls_fetchWithRetry env url 3 1000 (h ++ [.fetchTMDBMetadata id type])
  rcases hx : fetchWithRetry env url 3 1000 (h ++ [.fetchTMDBMetadata id type]) with ⟨r, es⟩
  rw [hx] at hq
  simp only at hq
  rcases r with e | (_ | (_ | data)) <;>
    simp [hx, M.raise, M.ret, pure_run, calls_append, hq, calls_cons, calls_nil, Event.isCall]

theorem calls_fetchTMDBEpisodeMetadata (env : Env) (tvId season episode : String)
    (h : History) :
    calls (fetchTMDBEpisodeMetadata env tvId season episode h).2 =
      [.fetchTMDBEpisodeMetadata tvId season episode] := by
  simp only [fetchTMDBEpisodeMetadata, bind_run, M.andThen, M.enter]
  generalize hu : "https://api.themoviedb.org/3/tv/" ++ tvId ++ "/season/" ++ season
    ++ "/episode/" ++ episode ++ "?api_key=" ++ str env.TMDB_API_KEY ++ "&language=en-US" = url
  have hq := calls_fetchWithRetry env url 3 1000
    (h ++ [.fetchTMDBEpisodeMetadata tvId season episode])
  rcases hx : fetchWithRetry env url 3 1000
    (h ++ [.fetchTMDBEpisodeMetadata tvId season episode]) with ⟨r, es⟩
  rw [hx] at hq
  simp only at hq
  rcases r with e | (_ | (_ | data)) <;>
    simp [hx, M.raise, M.ret, pure_run, calls_append, hq, calls_cons, calls_nil, Event.isCall]

theorem calls_fetchImageWithRetry (env : Env) (path : JsVal) (retries delay : Nat)
    (h : History) :
    calls (fetchImageWithRetry env path retries delay h).2 = [.fetchImageWithRetry path] := by
  simp only [fetchImageWithRetry, bind_run, M.andThen, M.enter]
  by_cases hp : path.truthy = true
  · have hq := calls_quiet (retryLoop_quiet (axiosGetBytes env
      ("https://image.tmdb.org/t/p/original" ++ path.toStr)) retries delay
      (axiosGetBytes_quiet env _) (List.range retries) (h ++ [.fetchImageWithRetry path]))
    simp [hp, fetchImageWithRetryLoop_eq, calls_append, hq, calls_cons, calls_nil, Event.isCall]
  · simp [hp, M.raise, calls_cons, calls_nil, Event.isCall]

theorem calls_checkIfExists (env : Env) (path : String) (h : History) :
    calls (checkIfExists env path h).2 = [.checkIfExists path] := by
  simp [checkIfExists_run, calls_cons, calls_nil, Event.isCall]

theorem calls_uploadToBunny (env : Env) (path : String) (body : Payload) (h : History) :
    calls (uploadToBunny env path body h).2 = [.uploadToBunny path] := by
  simp [uploadToBunny_run, calls_cons, calls_nil, Event.isCall]

theorem calls_logUpload (env : Env) (id type status : String) (h : History) :
    calls (logUpload env id type status h).2 = [.logUpload id type status] := by
  obtain ⟨entry, he⟩ := logUpload_run env id type status h
  simp [he, calls_cons, calls_nil, Event.isCall]

/-! ## The retry components -/

theorem fetchWithRetry_fail (env : Env) (url : String) (n delay : Nat) (h : History)
    (errs : Nat → JsError) (hn : 1 ≤ n)
    (hfail : ∀ j, j < n → env.getJson (h ++ failedAttempts url delay j) url = .error (errs j)) :
    fetchWithRetry env url n delay h =
      (.error (errs (n - 1)), failedAttempts url delay (n - 1) ++ [.axiosGet url]) := by
  rw [fetchWithRetry, fetchWithRetryLoop_eq, List.range_eq_range']
  exact retryLoop_fail _ url n delay n 0 h errs (by omega) hn
    (fun j hj => by simp [axiosGetJson, M.perform, hfail j hj])

theorem fetchWithRetry_success (env : Env) (url : String) (n delay k : Nat) (h : History)
    (res : Option TmdbData) (hk : k < n)
    (hfail : ∀ j, j < k → ∃ e, env.getJson (h ++ failedAttempts url delay j) url = .error e)
    (hok : env.getJson (h ++ failedAttempts url delay k) url = .ok res) :
    fetchWithRetry env url n delay h =
      (.ok (some res), failedAttempts url delay k ++ [.axiosGet url]) := by
  rw [fetchWithRetry, fetchWithRetryLoop_eq, List.range_eq_range']
  exact retryLoop_success _ url n delay k n 0 h res (by omega) hk
    (fun j hj => by
      obtain ⟨e, he⟩ := hfail j hj
      exact ⟨e, by simp [axiosGetJson, M.perform, he]⟩)
    (by simp [axiosGetJson, M.perform, hok])

theorem fetchImageWithRetry_fail (env : Env) (path : JsVal) (n delay : Nat) (h : History)
    (errs : Nat → JsError) (hp : path.truthy = true) (hn : 1 ≤ n)
    (hfail : ∀ j, j < n →
      env.getBytes (h ++ .fetchImageWithRetry path ::
          failedAttempts ("https://image.tmdb.org/t/p/original" ++ path.toStr) delay j)
        ("https://image.tmdb.org/t/p/original" ++ path.toStr) = .error (errs j)) :
    fetchImageWithRetry env path n delay h =
      (.error (errs (n - 1)),
       .fetchImageWithRetry path ::
         (failedAttempts ("https://image.tmdb.org/t/p/original" ++ path.toStr) delay (n - 1)
           ++ [.axiosGet ("https://image.tmdb.org/t/p/original" ++ path.toStr)])) := by
  have hloop := retryLoop_fail
    (axiosGetBytes env ("https://image.tmdb.org/t/p/original" ++ path.toStr))
    ("https://image.tmdb.org/t/p/original" ++ path.toStr) n delay n 0
    (h ++ [.fetchImageWithRetry path]) errs (by omega) hn
    (fun j hj => by
      have := hfail j hj
      simp only [List.append_assoc, List.singleton_append]
      simp [axiosGetBytes, M.perform, this])
  simp only [fetchImageWithRetry, bind_run, M.andThen, M.enter, hp, Bool.not_true,
    Bool.false_eq_true, if_false, fetchImageWithRetryLoop_eq, List.range_eq_range', hloop,
    List.singleton_append]

theorem fetchImageWithRetry_success (env : Env) (path : JsVal) (n delay k : Nat) (h : History)
    (res : Buffer) (hp : path.truthy = true) (hk : k < n)
    (hfail : ∀ j, j < k → ∃ e,
      env.getBytes (h ++ .fetchImageWithRetry path ::
          failedAttempts ("https://image.tmdb.org/t/p/original" ++ path.toStr) delay j)
        ("https://image.tmdb.org/t/p/original" ++ path.toStr) = .error e)
    (hok : env.getBytes (h ++ .fetchImageWithRetry path ::
          failedAttempts ("https://image.tmdb.org/t/p/original" ++ path.toStr) delay k)
        ("https://image.tmdb.org/t/p/original" ++ path.toStr) = .ok res) :
    fetchImageWithRetry env path n delay h =
      (.ok (some res),
       .fetchImageWithRetry path ::
         (failedAttempts ("https://image.tmdb.org/t/p/original" ++ path.toStr) delay k
           ++ [.axiosGet ("https://image.tmdb.org/t/p/original" ++ path.toStr)])) := by
  have hloop := retryLoop_success
    (axiosGetBytes env ("https://image.tmdb.org/t/p/original" ++ path.toStr))
    ("https://image.tmdb.org/t/p/original" ++ path.toStr) n delay k n 0
    (h ++ [.fetchImageWithRetry path]) res (by omega) hk
    (fun j hj => by
      obtain ⟨e, he⟩ := hfail j hj
      refine ⟨e, ?_⟩
      simp only [List.append_assoc, List.singleton_append]
      simp [axiosGetBytes, M.perform, he])
    (by
      simp only [List.append_assoc, List.singleton_append]
      simp [axiosGetBytes, M.perform, hok])
  simp only [fetchImageWithRetry, bind_run, M.andThen, M.enter, hp, Bool.not_true,
    Bool.false_eq_true, if_false, fetchImageWithRetryLoop_eq, List.range_eq_range', hloop,
    List.singleton_append]

/-! ## The blocks of the handlers -/

theorem M.pure_andThen {α β : Type} (a : α) (f : α → M β) :
    M.andThen (M.ret a) f = f a := by
  funext h
  simp only [M.andThen, M.ret, List.append_nil, List.nil_append]

theorem M.andThen_assoc {α β γ : Type} (x : M α) (f : α → M β) (g : β → M γ) :
    M.andThen (M.andThen x f) g = M.andThen x (fun a => M.andThen (f a) g) := by
  funext h
  simp only [M.andThen]
  rcases x h with ⟨_ | a, es⟩
  · rfl
  · simp only
    rcases f a (h ++ es) with ⟨_ | b, es'⟩
    · rfl
    · simp only [List.append_assoc]

theorem M.andThen_ret {α : Type} (x : M α) : M.andThen x M.ret = x := by
  funext h
  simp only [M.andThen, M.ret]
  rcases x h with ⟨_ | a, es⟩ <;> simp

theorem M.bind_bind {α β γ : Type} (x : M α) (f : α → M β) (g : β → M γ) :
    (x >>= f) >>= g = x >>= fun a => f a >>= g :=
  M.andThen_assoc x f g

theorem M.ret_bind {α β : Type} (a : α) (f : α → M β) : (pure a : M α) >>= f = f a :=
  M.pure_andThen a f

theorem attempt_respond (x : M Item) (h : History) :
    M.attempt (x >>= fun item => pure { status := 200, body := .item item })
        (fun _ => pure { status := 500, body := .error "Failed to fetch and upload data." }) h =
      (.ok (respond (x h).1), (x h).2) := by
  simp only [M.attempt, bind_run, M.andThen, pure_run]
  rcases x h with ⟨_ | a, es⟩ <;> simp [respond, M.ret]

theorem ite_bind {α β : Type} (c : Prop) [Decidable c] (a b : M α) (k : α → M β) :
    (if c then a else b) >>= k = if c then a >>= k else b >>= k := by
  split <;> rfl

theorem getMetadata_invalid (env : Env) (query : Query) (h : History)
    (hq : query.invalid = true) :
    getMetadata env query h =
      (.ok { status := 400, body := .error "Invalid or missing \"id\" or \"type\"" }, []) := by
  simp only [Query.invalid] at hq
  simp only [getMetadata, hq, if_true, pure_run]

theorem getMetadata_episode (env : Env) (query : Query) (h : History)
    (hq : query.invalid = false) (hep : query.isEpisode = true) :
    getMetadata env query h =
      (.ok (respond (episodeFlow env (str env.CDN_BASE_URL) (str query.id) (str query.season)
          (str query.episode) h).1),
       (episodeFlow env (str env.CDN_BASE_URL) (str query.id) (str query.season)
          (str query.episode) h).2) := by
  simp only [Query.invalid] at hq
  simp only [Query.isEpisode] at hep
  rw [← attempt_respond]
  simp only [getMetadata, hq, hep, if_true, if_false, Bool.false_eq_true, episodeFlow,
    episodeMiss, stillStep, M.bind_bind, M.ret_bind, ite_bind]

theorem getMetadata_show (env : Env) (query : Query) (h : History)
    (hq : query.invalid = false) (hep : query.isEpisode = false) :
    getMetadata env query h =
      (.ok (respond (showFlow env (str env.CDN_BASE_URL) (str query.id) (str query.type) h).1),
       (showFlow env (str env.CDN_BASE_URL) (str query.id) (str query.type) h).2) := by
  simp only [Query.invalid] at hq
  simp only [Query.isEpisode] at hep
  rw [← attempt_respond]
  simp only [getMetadata, hq, hep, if_true, if_false, Bool.false_eq_true, showFlow,
    showMiss, posterStep, backdropStep, M.bind_bind, M.ret_bind, ite_bind]

theorem batchItem_run (env : Env) (cdnBase type id : String) (h : History) :
    batchItem env cdnBase type id h =
      (.ok (entryOf id (showFlow env cdnBase id type h).1),
       (showFlow env cdnBase id type h).2) := by
  have key : ∀ x : M Item,
      M.attempt (x >>= fun item => pure (BatchEntry.item id item))
        (fun err => pure (BatchEntry.error id err.message)) h
        = (.ok (entryOf id (x h).1), (x h).2) := by
    intro x
    simp only [M.attempt, bind_run, M.andThen, pure_run]
    rcases x h with ⟨_ | a, es⟩ <;> simp [entryOf, M.ret]
  rw [← key]
  simp only [batchItem, showFlow, showMiss, posterStep, backdropStep, M.bind_bind, M.ret_bind,
    ite_bind]

/-! ## The image blocks -/

theorem stored_iff (env : Env) (ref : JsVal) (path : String) (h : History) :
    stored env ref path h = true ↔
      ref.truthy = true ∧ ∃ buffer es, fetchImageWithRetry env ref 3 1000 h = (.ok buffer, es) ∧
        (uploadToBunny env path (.ofBuffer buffer) (h ++ es)).1 = .ok () := by
  simp only [stored, Bool.and_eq_true]
  constructor
  · rintro ⟨ht, hs⟩
    refine ⟨ht, ?_⟩
    rcases hf : fetchImageWithRetry env ref 3 1000 h with ⟨_ | buffer, es⟩
    · simp [hf] at hs
    · refine ⟨buffer, es, rfl, ?_⟩
      rw [hf] at hs
      simp only at hs
      rcases hu : (uploadToBunny env path (.ofBuffer buffer) (h ++ es)).1 with _ | u
      · simp [hu] at hs
      · rfl
  · rintro ⟨ht, buffer, es, hf, hu⟩
    refine ⟨ht, ?_⟩
    simp [hf, hu]

theorem backdropStep_run (env : Env) (ref : JsVal) (path : String) (h : History) :
    (backdropStep env ref path h).1 = .ok (stored env ref path h) ∧
      calls (backdropStep env ref path h).2 = imageCalls env ref path h := by
  simp only [backdropStep, stored, imageCalls]
  by_cases ht : ref.truthy = true
  · have hc := calls_fetchImageWithRetry env ref 3 1000 h
    simp only [ht, if_true, Bool.true_and, M.attempt, bind_run, M.andThen]
    rcases hf : fetchImageWithRetry env ref 3 1000 h with ⟨e | buffer, es⟩
    · rw [hf] at hc
      simp only at hc
      simp [pure_run, M.ret, hc]
    · rw [hf] at hc
      simp only at hc
      have hu := calls_uploadToBunny env path (.ofBuffer buffer) (h ++ es)
      rcases hup : uploadToBunny env path (.ofBuffer buffer) (h ++ es) with ⟨e | u, es'⟩
      · rw [hup] at hu
        simp only at hu
        simp [hup, pure_run, M.ret, calls_append, hc, hu]
      · rw [hup] at hu
        simp only at hu
        simp [hup, pure_run, M.ret, calls_append, hc, hu]
  · simp [ht, pure_run, M.ret, calls_nil]

theorem posterStep_run (env : Env) (ref : JsVal) (path : String) (h : History) :
    (posterStep env ref path h).1 = .ok () ∧
      calls (posterStep env ref path h).2 = imageCalls env ref path h := by
  simp only [posterStep, imageCalls]
  by_cases ht : ref.truthy = true
  · have hc := calls_fetchImageWithRetry env ref 3 1000 h
    simp only [ht, if_true, M.attempt, bind_run, M.andThen]
    rcases hf : fetchImageWithRetry env ref 3 1000 h with ⟨e | buffer, es⟩
    · rw [hf] at hc
      simp only at hc
      simp [pure_run, M.ret, hc]
    · rw [hf] at hc
      simp only at hc
      have hu := calls_uploadToBunny env path (.ofBuffer buffer) (h ++ es)
      rcases hup : uploadToBunny env path (.ofBuffer buffer) (h ++ es) with ⟨e | u, es'⟩
      · rw [hup] at hu
        simp only at hu
        simp [hup, pure_run, M.ret, calls_append, hc, hu]
      · rw [hup] at hu
        simp only at hu
        simp [hup, pure_run, M.ret, calls_append, hc, hu]
  · simp [ht, pure_run, M.ret, calls_nil]

theorem stillStep_calls (env : Env) (ref : JsVal) (path : String) (h : History) :
    calls (stillStep env ref path h).2 = imageCalls env ref path h := by
  simp only [stillStep, imageCalls]
  by_cases ht : ref.truthy = true
  · have hc := calls_fetchImageWithRetry env ref 3 1000 h
    simp only [ht, if_true, bind_run, M.andThen]
    rcases hf : fetchImageWithRetry env ref 3 1000 h with ⟨e | buffer, es⟩
    · rw [hf] at hc
      simp only at hc
      simp [hc]
    · rw [hf] at hc
      simp only at hc
      have hu := calls_uploadToBunny env path (.ofBuffer buffer) (h ++ es)
      simp [calls_append, hc, hu]
  · simp [ht, pure_run, M.ret, calls_nil]

/-! ## The flows -/

section ShowMiss

variable (env : Env) (cdnBase id type : String) (h : History)

theorem showMiss_fetch_error {e : JsError} {e1 : List Event}
    (hf : fetchTMDBMetadata env id type h = (.error e, e1)) :
    (showMiss env cdnBase id type h).1 = .error e ∧
      calls (showMiss env cdnBase id type h).2 = [.fetchTMDBMetadata id type] := by
  have hc := calls_fetchTMDBMetadata env id type h
  rw [hf] at hc
  simp only [showMiss, bind_error hf]
  exact ⟨trivial, hc⟩

theorem showMiss_upload_error {md : ShowMetadata} {e : JsError} {e1 e2 : List Event}
    (hf : fetchTMDBMetadata env id type h = (.ok md, e1))
    (hu : uploadToBunny env ("metadata/" ++ type ++ "_" ++ id ++ ".json") (.showJson md)
      (h ++ e1) = (.error e, e2)) :
    (showMiss env cdnBase id type h).1 = .error e ∧
      calls (showMiss env cdnBase id type h).2 =
        [.fetchTMDBMetadata id type,
         .uploadToBunny ("metadata/" ++ type ++ "_" ++ id ++ ".json")] := by
  have hc := calls_fetchTMDBMetadata env id type h
  have hcu := calls_uploadToBunny env ("metadata/" ++ type ++ "_" ++ id ++ ".json")
    (.showJson md) (h ++ e1)
  rw [hf] at hc
  rw [hu] at hcu
  simp only at hc hcu
  simp only [showMiss, bind_ok hf, bind_error hu, calls_append, hc, hcu]
  exact ⟨trivial, rfl⟩

theorem showMiss_uploaded {md : ShowMetadata} {e1 e2 : List Event}
    (hf : fetchTMDBMetadata env id type h = (.ok md, e1))
    (hu : uploadToBunny env ("metadata/" ++ type ++ "_" ++ id ++ ".json") (.showJson md)
      (h ++ e1) = (.ok (), e2)) :
    let hP := h ++ e1 ++ e2
    let hB := hP ++
      (posterStep env md.poster_path ("images/poster/" ++ type ++ "_" ++ id ++ ".jpg") hP).2
    let hL := hB ++
      (backdropStep env md.backdrop_path ("images/backdrop/" ++ type ++ "_" ++ id ++ ".jpg")
        hB).2
    (showMiss env cdnBase id type h).1 =
        (match (logUpload env id type "uploaded" hL).1 with
          | .ok _ => .ok {
              from_ := "tmdb"
              metaUrl := cdnBase ++ "/" ++ ("metadata/" ++ type ++ "_" ++ id ++ ".json")
              imageUrl := cdnBase ++ "/" ++ ("images/poster/" ++ type ++ "_" ++ id ++ ".jpg")
              backdropUrl :=
                if stored env md.backdrop_path
                    ("images/backdrop/" ++ type ++ "_" ++ id ++ ".jpg") hB then
                  .url (cdnBase ++ "/" ++ ("images/backdrop/" ++ type ++ "_" ++ id ++ ".jpg"))
                else .null
              metadata := some (.movieOrTv md) }
          | .error e => .error e) ∧
      calls (showMiss env cdnBase id type h).2 =
        [.fetchTMDBMetadata id type,
         .uploadToBunny ("metadata/" ++ type ++ "_" ++ id ++ ".json")]
        ++ imageCalls env md.poster_path ("images/poster/" ++ type ++ "_" ++ id ++ ".jpg") hP
        ++ imageCalls env md.backdrop_path ("images/backdrop/" ++ type ++ "_" ++ id ++ ".jpg")
            hB
        ++ [.logUpload id type "uploaded"] := by
  intro hP hB hL
  have hc := calls_fetchTMDBMetadata env id type h
  have hcu := calls_uploadToBunny env ("metadata/" ++ type ++ "_" ++ id ++ ".json")
    (.showJson md) (h ++ e1)
  rw [hf] at hc
  rw [hu] at hcu
  simp only at hc hcu
  obtain ⟨hp1, hp2⟩ := posterStep_run env md.poster_path
    ("images/poster/" ++ type ++ "_" ++ id ++ ".jpg") hP
  obtain ⟨hb1, hb2⟩ := backdropStep_run env md.backdrop_path
    ("images/backdrop/" ++ type ++ "_" ++ id ++ ".jpg") hB
  have hl2 := calls_logUpload env id type "uploaded" hL
  have hp : posterStep env md.poster_path ("images/poster/" ++ type ++ "_" ++ id ++ ".jpg") hP
      = (.ok (), (posterStep env md.poster_path
          ("images/poster/" ++ type ++ "_" ++ id ++ ".jpg") hP).2) := by
    rw [← hp1]
  have hb : backdropStep env md.backdrop_path
      ("images/backdrop/" ++ type ++ "_" ++ id ++ ".jpg") hB
      = (.ok (stored env md.backdrop_path
          ("images/backdrop/" ++ type ++ "_" ++ id ++ ".jpg") hB),
        (backdropStep env md.backdrop_path
          ("images/backdrop/" ++ type ++ "_" ++ id ++ ".jpg") hB).2) := by
    rw [← hb1]
  simp only [showMiss, bind_ok hf, bind_ok hu, bind_ok hp, bind_ok hb, calls_append, hc, hcu,
    hp2, hb2]
  rcases hl : logUpload env id type "uploaded" hL with ⟨e | u, es⟩
  · rw [hl] at hl2
    simp only at hl2
    simp only [bind_error hl, hl2]
    exact ⟨trivial, by simp⟩
  · rw [hl] at hl2
    simp only at hl2
    simp only [bind_ok hl, hl2, pure_run, calls_nil]
    exact ⟨trivial, by simp [hl2]⟩

end ShowMiss

section ShowFlow

variable (env : Env) (cdnBase id type : String) (h : History)

theorem showFlow_hit
    (hc : (checkIfExists env ("metadata/" ++ type ++ "_" ++ id ++ ".json") h).1 = .ok true) :
    showFlow env cdnBase id type h =
      (.ok {
          from_ := "cdn"
          metaUrl := cdnBase ++ "/" ++ ("metadata/" ++ type ++ "_" ++ id ++ ".json")
          imageUrl := cdnBase ++ "/" ++ ("images/poster/" ++ type ++ "_" ++ id ++ ".jpg")
          backdropUrl :=
            .url (cdnBase ++ "/" ++ ("images/backdrop/" ++ type ++ "_" ++ id ++ ".jpg"))
          metadata := none },
       [.checkIfExists ("metadata/" ++ type ++ "_" ++ id ++ ".json"),
        .axiosHead (str env.CDN_BASE_URL ++ "/"
          ++ ("metadata/" ++ type ++ "_" ++ id ++ ".json"))]) := by
  have hx : checkIfExists env ("metadata/" ++ type ++ "_" ++ id ++ ".json") h =
      (.ok true, [.checkIfExists ("metadata/" ++ type ++ "_" ++ id ++ ".json"),
        .axiosHead (str env.CDN_BASE_URL ++ "/"
          ++ ("metadata/" ++ type ++ "_" ++ id ++ ".json"))]) := by
    rw [checkIfExists_run] at hc ⊢
    simp only at hc
    rw [hc]
  simp only [showFlow, bind_ok hx, if_true, pure_run, List.append_nil]

theorem showFlow_miss
    (hc : (checkIfExists env ("metadata/" ++ type ++ "_" ++ id ++ ".json") h).1 = .ok false) :
    showFlow env cdnBase id type h =
      ((showMiss env cdnBase id type
          (h ++ (checkIfExists env ("metadata/" ++ type ++ "_" ++ id ++ ".json") h).2)).1,
       (checkIfExists env ("metadata/" ++ type ++ "_" ++ id ++ ".json") h).2 ++
        (showMiss env cdnBase id type
          (h ++ (checkIfExists env ("metadata/" ++ type ++ "_" ++ id ++ ".json") h).2)).2) := by
  have hx : checkIfExists env ("metadata/" ++ type ++ "_" ++ id ++ ".json") h =
      (.ok false, (checkIfExists env ("metadata/" ++ type ++ "_" ++ id ++ ".json") h).2) := by
    rw [← hc]
  rw [showFlow, bind_ok hx]
  simp only [Bool.false_eq_true, if_false]

end ShowFlow

section EpisodeFlow

variable (env : Env) (cdnBase id season episode : String) (h : History)

theorem episodeMiss_fetch_error {e : JsError} {e1 : List Event}
    (hf : fetchTMDBEpisodeMetadata env id season episode h = (.error e, e1)) :
    (episodeMiss env cdnBase id season episode h).1 = .error e ∧
      calls (episodeMiss env cdnBase id season episode h).2 =
        [.fetchTMDBEpisodeMetadata id season episode] := by
  have hc := calls_fetchTMDBEpisodeMetadata env id season episode h
  rw [hf] at hc
  simp only [episodeMiss, bind_error hf]
  exact ⟨trivial, hc⟩

theorem episodeMiss_upload_error {md : EpisodeMetadata} {e : JsError} {e1 e2 : List Event}
    (hf : fetchTMDBEpisodeMetadata env id season episode h = (.ok md, e1))
    (hu : uploadToBunny env
      ("metadata/episode_" ++ id ++ "_s" ++ season ++ "_e" ++ episode ++ ".json")
      (.episodeJson md) (h ++ e1) = (.error e, e2)) :
    (episodeMiss env cdnBase id season episode h).1 = .error e ∧
      calls (episodeMiss env cdnBase id season episode h).2 =
        [.fetchTMDBEpisodeMetadata id season episode,
         .uploadToBunny
          ("metadata/episode_" ++ id ++ "_s" ++ season ++ "_e" ++ episode ++ ".json")] := by
  have hc := calls_fetchTMDBEpisodeMetadata env id season episode h
  have hcu := calls_uploadToBunny env
    ("metadata/episode_" ++ id ++ "_s" ++ season ++ "_e" ++ episode ++ ".json")
    (.episodeJson md) (h ++ e1)
  rw [hf] at hc
  rw [hu] at hcu
  simp only at hc hcu
  simp only [episodeMiss, bind_ok hf, bind_error hu, calls_append, hc, hcu]
  exact ⟨trivial, rfl⟩

theorem episodeMiss_uploaded {md : EpisodeMetadata} {e1 e2 : List Event}
    (hf : fetchTMDBEpisodeMetadata env id season episode h = (.ok md, e1))
    (hu : uploadToBunny env
      ("metadata/episode_" ++ id ++ "_s" ++ season ++ "_e" ++ episode ++ ".json")
      (.episodeJson md) (h ++ e1) = (.ok (), e2)) :
    let hS := h ++ e1 ++ e2
    let still := stillStep env md.still_path
      ("images/episode/episode_" ++ id ++ "_s" ++ season ++ "_e" ++ episode ++ ".jpg") hS
    let hL := hS ++ still.2
    (episodeMiss env cdnBase id season episode h).1 =
        (match still.1 with
          | .error e => .error e
          | .ok _ =>
            match (logUpload env id ("episode " ++ season ++ "-" ++ episode) "uploaded" hL).1 with
            | .ok _ => .ok {
                from_ := "tmdb"
                metaUrl := cdnBase ++ "/"
                  ++ ("metadata/episode_" ++ id ++ "_s" ++ season ++ "_e" ++ episode ++ ".json")
                imageUrl := cdnBase ++ "/"
                  ++ ("images/episode/episode_" ++ id ++ "_s" ++ season ++ "_e" ++ episode
                    ++ ".jpg")
                backdropUrl := .absent
                metadata := some (.episode md) }
            | .error e => .error e) ∧
      calls (episodeMiss env cdnBase id season episode h).2 =
        [.fetchTMDBEpisodeMetadata id season episode,
         .uploadToBunny
          ("metadata/episode_" ++ id ++ "_s" ++ season ++ "_e" ++ episode ++ ".json")]
        ++ imageCalls env md.still_path
            ("images/episode/episode_" ++ id ++ "_s" ++ season ++ "_e" ++ episode ++ ".jpg") hS
        ++ (match still.1 with
            | .error _ => []
            | .ok _ => [.logUpload id ("episode " ++ season ++ "-" ++ episode) "uploaded"]) := by
  intro hS still hL
  have hc := calls_fetchTMDBEpisodeMetadata env id season episode h
  have hcu := calls_uploadToBunny env
    ("metadata/episode_" ++ id ++ "_s" ++ season ++ "_e" ++ episode ++ ".json")
    (.episodeJson md) (h ++ e1)
  rw [hf] at hc
  rw [hu] at hcu
  simp only at hc hcu
  have hs2 := stillStep_calls env md.still_path
    ("images/episode/episode_" ++ id ++ "_s" ++ season ++ "_e" ++ episode ++ ".jpg") hS
  rcases hs : stillStep env md.still_path
    ("images/episode/episode_" ++ id ++ "_s" ++ season ++ "_e" ++ episode ++ ".jpg") hS
    with ⟨e | u, e3⟩
  · have hst : still = (.error e, e3) := hs
    rw [hs] at hs2
    simp only at hs2
    simp only [episodeMiss, bind_ok hf, bind_ok hu, bind_error hs, calls_append, hc, hcu, hs2,
      hst]
    exact ⟨trivial, by simp⟩
  · have hst : still = (.ok u, e3) := hs
    have hl2 := calls_logUpload env id ("episode " ++ season ++ "-" ++ episode) "uploaded"
      (hS ++ e3)
    have hLe : hL = hS ++ e3 := by simp only [hL, hst]
    rw [hs] at hs2
    simp only at hs2
    simp only [episodeMiss, bind_ok hf, bind_ok hu, bind_ok hs, calls_append, hc, hcu, hs2,
      hst, hLe]
    rcases hl : logUpload env id ("episode " ++ season ++ "-" ++ episode) "uploaded" (hS ++ e3)
      with ⟨e | u', es⟩
    · rw [hl] at hl2
      simp only at hl2
      simp only [bind_error hl, hl2]
      exact ⟨trivial, by simp⟩
    · rw [hl] at hl2
      simp only at hl2
      simp only [bind_ok hl, hl2, pure_run, calls_nil]
      exact ⟨trivial, by simp [hl2]⟩

theorem episodeFlow_hit
    (hc : (checkIfExists env
      ("metadata/episode_" ++ id ++ "_s" ++ season ++ "_e" ++ episode ++ ".json") h).1
        = .ok true) :
    episodeFlow env cdnBase id season episode h =
      (.ok {
          from_ := "cdn"
          metaUrl := cdnBase ++ "/"
            ++ ("metadata/episode_" ++ id ++ "_s" ++ season ++ "_e" ++ episode ++ ".json")
          imageUrl := cdnBase ++ "/"
            ++ ("images/episode/episode_" ++ id ++ "_s" ++ season ++ "_e" ++ episode ++ ".jpg")
          backdropUrl := .absent
          metadata := none },
       [.checkIfExists
          ("metadata/episode_" ++ id ++ "_s" ++ season ++ "_e" ++ episode ++ ".json"),
        .axiosHead (str env.CDN_BASE_URL ++ "/"
          ++ ("metadata/episode_" ++ id ++ "_s" ++ season ++ "_e" ++ episode ++ ".json"))]) := by
  have hx : checkIfExists env
      ("metadata/episode_" ++ id ++ "_s" ++ season ++ "_e" ++ episode ++ ".json") h =
      (.ok true, [.checkIfExists
          ("metadata/episode_" ++ id ++ "_s" ++ season ++ "_e" ++ episode ++ ".json"),
        .axiosHead (str env.CDN_BASE_URL ++ "/"
          ++ ("metadata/episode_" ++ id ++ "_s" ++ season ++ "_e" ++ episode ++ ".json"))]) := by
    rw [checkIfExists_run] at hc ⊢
    simp only at hc
    rw [hc]
  simp only [episodeFlow, bind_ok hx, if_true, pure_run, List.append_nil]

theorem episodeFlow_miss
    (hc : (checkIfExists env
      ("metadata/episode_" ++ id ++ "_s" ++ season ++ "_e" ++ episode ++ ".json") h).1
        = .ok false) :
    episodeFlow env cdnBase id season episode h =
      ((episodeMiss env cdnBase id season episode
          (h ++ (checkIfExists env
            ("metadata/episode_" ++ id ++ "_s" ++ season ++ "_e" ++ episode ++ ".json") h).2)).1,
       (checkIfExists env
          ("metadata/episode_" ++ id ++ "_s" ++ season ++ "_e" ++ episode ++ ".json") h).2 ++
        (episodeMiss env cdnBase id season episode
          (h ++ (checkIfExists env
            ("metadata/episode_" ++ id ++ "_s" ++ season ++ "_e" ++ episode ++ ".json") h).2)).2)
    := by
  have hx : checkIfExists env
      ("metadata/episode_" ++ id ++ "_s" ++ season ++ "_e" ++ episode ++ ".json") h =
      (.ok false, (checkIfExists env
        ("metadata/episode_" ++ id ++ "_s" ++ season ++ "_e" ++ episode ++ ".json") h).2) := by
    rw [← hc]
  rw [episodeFlow, bind_ok hx]
  simp only [Bool.false_eq_true, if_false]

end EpisodeFlow

/-! ## The batch route -/

theorem entryOf_id (id : String) (r : Except JsError Item) : (entryOf id r).id = id := by
  cases r <;> rfl

theorem promiseAll_batchItem (env : Env) (cdnBase type : String) :
    ∀ (ids : List String) (h : History), ∃ results,
      (promiseAll (ids.map (batchItem env cdnBase type)) h).1 = .ok results ∧
        results.map BatchEntry.id = ids := by
  intro ids
  induction ids with
  | nil => intro h; exact ⟨[], rfl, rfl⟩
  | cons id ids ih =>
    intro h
    obtain ⟨results, hres, hmap⟩ := ih (h ++ (showFlow env cdnBase id type h).2)
    refine ⟨entryOf id (showFlow env cdnBase id type h).1 :: results, ?_, ?_⟩
    · simp only [List.map_cons, promiseAll, bind_ok (batchItem_run env cdnBase type id h)]
      rcases hp : promiseAll (ids.map (batchItem env cdnBase type))
        (h ++ (showFlow env cdnBase id type h).2) with ⟨r, es⟩
      rw [hp] at hres
      simp only at hres
      subst hres
      simp only [bind_ok hp, pure_run]
    · simp only [List.map_cons, entryOf_id, hmap]

theorem getBatchMetadata_invalid (env : Env) (batch : BatchQuery) (h : History)
    (hq : (!batch.ids.truthy || !includes ["movie", "tv"] batch.type) = true) :
    getBatchMetadata env batch h =
      (.ok { status := 400, body := .error "Missing or invalid \"ids\" or \"type\"" }, []) := by
  simp only [getBatchMetadata, hq, if_true, pure_run]

theorem getBatchMetadata_valid (env : Env) (batch : BatchQuery) (ids : String) (h : History)
    (hq : (!batch.ids.truthy || !includes ["movie", "tv"] batch.type) = false)
    (hids : batch.ids = .str ids) :
    ∃ results, (getBatchMetadata env batch h).1 = .ok { status := 200, body := .results results }
      ∧ results.map BatchEntry.id = idList ids := by
  obtain ⟨results, hres, hmap⟩ := promiseAll_batchItem env (str env.CDN_BASE_URL)
    (str batch.type) (idList ids) h
  refine ⟨results, ?_, hmap⟩
  rw [hids] at hq
  simp only [getBatchMetadata, hids, hq, Bool.false_eq_true, if_false]
  rcases hp : promiseAll ((idList ids).map
    (batchItem env (str env.CDN_BASE_URL) (str batch.type))) h with ⟨r, es⟩
  rw [hp] at hres
  simp only at hres
  subst hres
  simp only [bind_ok hp, pure_run]

theorem getBatchMetadata_not_string (env : Env) (batch : BatchQuery) (h : History)
    (hq : (!batch.ids.truthy || !includes ["movie", "tv"] batch.type) = false)
    (hids : ∀ ids, batch.ids ≠ .str ids) :
    getBatchMetadata env batch h =
      (.error { message := "ids.split is not a function", code := none }, []) := by
  simp only [getBatchMetadata, hq, Bool.false_eq_true, if_false]
  rcases hb : batch.ids with _ | ids | items | fields
  · rfl
  · exact absurd hb (hids ids)
  · rfl
  · rfl

theorem batch_invalid_iff (ids : QueryVal) (type : Option String) :
    (!ids.truthy || !includes ["movie", "tv"] type) = true ↔
      (ids = .undefined ∨ ids = .str "" ∨ (type ≠ some "movie" ∧ type ≠ some "tv")) := by
  rcases ids with _ | ids | items | fields <;> rcases type with _ | type <;>
    simp [QueryVal.truthy, includes]

theorem invalid_iff (id type : Option String) :
    (!truthy id || !includes ["movie", "tv"] type) = true ↔
      (id = none ∨ id = some "" ∨ (type ≠ some "movie" ∧ type ≠ some "tv")) := by
  rcases id with _ | id <;> rcases type with _ | type <;>
    simp [truthy, includes]

theorem respond_status (r : Except JsError Item) : (respond r).status ≠ 400 := by
  cases r <;> simp [respond]

theorem getMetadata_valid (env : Env) (query : Query) (h : History)
    (hq : query.invalid = false) :
    ∃ r, (getMetadata env query h).1 = .ok r ∧ r.status ≠ 400 := by
  by_cases hep : query.isEpisode = true
  · rw [getMetadata_episode env query h hq hep]
    exact ⟨_, rfl, respond_status _⟩
  · rw [getMetadata_show env query h hq (by simpa using hep)]
    exact ⟨_, rfl, respond_status _⟩

/-! ## Shapes of the service calls -/

theorem imageCalls_cases (env : Env) (ref : JsVal) (path : String) (h : History) :
    (ref.truthy = false ∧ imageCalls env ref path h = []) ∨
      (ref.truthy = true ∧
        (imageCalls env ref path h = [.fetchImageWithRetry ref] ∨
          imageCalls env ref path h = [.fetchImageWithRetry ref, .uploadToBunny path])) := by
  simp only [imageCalls]
  by_cases ht : ref.truthy = true
  · right
    refine ⟨ht, ?_⟩
    rcases (fetchImageWithRetry env ref 3 1000 h).1 with e | b <;> simp [ht]
  · left
    simp only [Bool.not_eq_true] at ht
    simp [ht]

theorem poster_ne_metadata (type id : String) :
    ("images/poster/" ++ type ++ "_" ++ id ++ ".jpg" == "metadata/" ++ type ++ "_" ++ id ++ ".json")
      = false := by
  simp only [beq_eq_false_iff_ne]
  intro hh
  have := congrArg String.data hh
  simp [String.data_append] at this

theorem backdrop_ne_metadata (type id : String) :
    ("images/backdrop/" ++ type ++ "_" ++ id ++ ".jpg"
      == "metadata/" ++ type ++ "_" ++ id ++ ".json") = false := by
  simp only [beq_eq_false_iff_ne]
  intro hh
  have := congrArg String.data hh
  simp [String.data_append] at this

theorem backdrop_ne_poster (type id : String) :
    ("images/backdrop/" ++ type ++ "_" ++ id ++ ".jpg"
      == "images/poster/" ++ type ++ "_" ++ id ++ ".jpg") = false := by
  simp only [beq_eq_false_iff_ne]
  intro hh
  have := congrArg String.data hh
  simp [String.data_append] at this

theorem poster_ne_backdrop (type id : String) :
    ("images/poster/" ++ type ++ "_" ++ id ++ ".jpg"
      == "images/backdrop/" ++ type ++ "_" ++ id ++ ".jpg") = false := by
  simp only [beq_eq_false_iff_ne]
  intro hh
  have := congrArg String.data hh
  simp [String.data_append] at this

theorem metadata_ne_poster (type id : String) :
    ("metadata/" ++ type ++ "_" ++ id ++ ".json"
      == "images/poster/" ++ type ++ "_" ++ id ++ ".jpg") = false := by
  simp only [beq_eq_false_iff_ne]
  intro hh
  have := congrArg String.data hh
  simp [String.data_append] at this

theorem metadata_ne_backdrop (type id : String) :
    ("metadata/" ++ type ++ "_" ++ id ++ ".json"
      == "images/backdrop/" ++ type ++ "_" ++ id ++ ".jpg") = false := by
  simp only [beq_eq_false_iff_ne]
  intro hh
  have := congrArg String.data hh
  simp [String.data_append] at this

theorem episodeImage_ne_metadata (id season episode : String) :
    ("images/episode/episode_" ++ id ++ "_s" ++ season ++ "_e" ++ episode ++ ".jpg"
      == "metadata/episode_" ++ id ++ "_s" ++ season ++ "_e" ++ episode ++ ".json") = false := by
  simp only [beq_eq_false_iff_ne]
  intro hh
  have := congrArg String.data hh
  simp [String.data_append] at this

theorem episodeMetadata_ne_image (id season episode : String) :
    ("metadata/episode_" ++ id ++ "_s" ++ season ++ "_e" ++ episode ++ ".json"
      == "images/episode/episode_" ++ id ++ "_s" ++ season ++ "_e" ++ episode ++ ".jpg") = false := by
  simp only [beq_eq_false_iff_ne]
  intro hh
  have := congrArg String.data hh
  simp [String.data_append] at this

theorem countP_calls (p : Event → Bool) (hp : ∀ e, p e = true → e.isCall = true)
    (events : List Event) : events.countP p = (calls events).countP p := by
  induction events with
  | nil => rfl
  | cons e es ih =>
    simp only [List.countP_cons, calls_cons, ih]
    by_cases hc : e.isCall = true
    · simp [hc, List.countP_cons]
    · have : p e = false := by
        by_contra hpe
        exact hc (hp e (by simpa using hpe))
      simp [hc, this]

section Shapes

variable (env : Env) (cdnBase id type season episode : String) (h : History)

theorem showMiss_shape :
    ∃ rest, calls (showMiss env cdnBase id type h).2 = .fetchTMDBMetadata id type :: rest ∧
      rest.countP Event.isMetadataFetch = 0 ∧
      (∀ p, Event.uploadToBunny p ∈ rest →
        p = "metadata/" ++ type ++ "_" ++ id ++ ".json" ∨
        p = "images/poster/" ++ type ++ "_" ++ id ++ ".jpg" ∨
        p = "images/backdrop/" ++ type ++ "_" ++ id ++ ".jpg") ∧
      match (fetchTMDBMetadata env id type h).1 with
      | .error _ => rest = []
      | .ok md =>
        rest.countP (Event.isUploadTo ("metadata/" ++ type ++ "_" ++ id ++ ".json")) = 1 ∧
        rest.countP Event.isImageFetch ≤
          (if md.poster_path.truthy then 1 else 0) + (if md.backdrop_path.truthy then 1 else 0) ∧
        rest.countP (Event.isUploadTo ("images/poster/" ++ type ++ "_" ++ id ++ ".jpg")) ≤
          (if md.poster_path.truthy then 1 else 0) ∧
        rest.countP (Event.isUploadTo ("images/backdrop/" ++ type ++ "_" ++ id ++ ".jpg")) ≤
          (if md.backdrop_path.truthy then 1 else 0) ∧
        (∀ ref, Event.fetchImageWithRetry ref ∈ rest →
          ref.truthy = true ∧ (ref = md.poster_path ∨ ref = md.backdrop_path)) ∧
        ∀ ref, rest.countP (Event.isImageFetchOf ref) ≤
          (if md.poster_path.truthy && md.poster_path == ref then 1 else 0)
            + (if md.backdrop_path.truthy && md.backdrop_path == ref then 1 else 0) := by
  rcases hf : fetchTMDBMetadata env id type h with ⟨e | md, e1⟩
  · obtain ⟨_, h2⟩ := showMiss_fetch_error env cdnBase id type h hf
    exact ⟨[], h2, rfl, by simp, rfl⟩
  · rcases hu : uploadToBunny env ("metadata/" ++ type ++ "_" ++ id ++ ".json") (.showJson md)
      (h ++ e1) with ⟨e | ⟨⟩, e2⟩
    · obtain ⟨_, h2⟩ := showMiss_upload_error env cdnBase id type h hf hu
      refine ⟨_, h2, ?_, ?_, ?_⟩
      · simp [Event.isMetadataFetch]
      · simp
      · simp [Event.isUploadTo, Event.isImageFetch, Event.isImageFetchOf, poster_ne_metadata,
          backdrop_ne_metadata, metadata_ne_poster, metadata_ne_backdrop]
    · obtain ⟨_, h2⟩ := showMiss_uploaded env cdnBase id type h hf hu
      rcases imageCalls_cases env md.poster_path
          ("images/poster/" ++ type ++ "_" ++ id ++ ".jpg") (h ++ e1 ++ e2)
        with ⟨hpt, hpc⟩ | ⟨hpt, hpc | hpc⟩ <;>
      rcases imageCalls_cases env md.backdrop_path
          ("images/backdrop/" ++ type ++ "_" ++ id ++ ".jpg")
          (h ++ e1 ++ e2 ++ (posterStep env md.poster_path
            ("images/poster/" ++ type ++ "_" ++ id ++ ".jpg") (h ++ e1 ++ e2)).2)
        with ⟨hbt, hbc⟩ | ⟨hbt, hbc | hbc⟩ <;>
      rw [hpc, hbc] at h2 <;>
      refine ⟨_, h2, ?_⟩ <;>
      simp [hpt, hbt, Event.isMetadataFetch, Event.isUploadTo, Event.isImageFetch,
        Event.isImageFetchOf, poster_ne_metadata, backdrop_ne_metadata, metadata_ne_poster,
        metadata_ne_backdrop, poster_ne_backdrop, backdrop_ne_poster] <;>
      intro ref <;>
      by_cases h1 : md.poster_path = ref <;>
      by_cases h2 : md.backdrop_path = ref <;>
      simp [List.countP_cons, Event.isImageFetchOf, h1, h2]

theorem showMiss_item (item : Item) (hitem : (showMiss env cdnBase id type h).1 = .ok item) :
    item.from_ = "tmdb" ∧
      item.metaUrl = cdnBase ++ "/" ++ ("metadata/" ++ type ++ "_" ++ id ++ ".json") ∧
      item.imageUrl = cdnBase ++ "/" ++ ("images/poster/" ++ type ++ "_" ++ id ++ ".jpg") ∧
      (item.backdropUrl = .null ∨ item.backdropUrl =
        .url (cdnBase ++ "/" ++ ("images/backdrop/" ++ type ++ "_" ++ id ++ ".jpg"))) ∧
      ∃ md, (fetchTMDBMetadata env id type h).1 = .ok md ∧
        item.metadata = some (.movieOrTv md) := by
  rcases hf : fetchTMDBMetadata env id type h with ⟨e | md, e1⟩
  · obtain ⟨h1, _⟩ := showMiss_fetch_error env cdnBase id type h hf
    rw [h1] at hitem
    exact absurd hitem (by simp)
  · rcases hu : uploadToBunny env ("metadata/" ++ type ++ "_" ++ id ++ ".json") (.showJson md)
      (h ++ e1) with ⟨e | ⟨⟩, e2⟩
    · obtain ⟨h1, _⟩ := showMiss_upload_error env cdnBase id type h hf hu
      rw [h1] at hitem
      exact absurd hitem (by simp)
    · obtain ⟨h1, _⟩ := showMiss_uploaded env cdnBase id type h hf hu
      rw [h1] at hitem
      split at hitem
      · simp only [Except.ok.injEq] at hitem
        subst hitem
        refine ⟨rfl, rfl, rfl, ?_, md, rfl, rfl⟩
        split <;> simp
      · exact absurd hitem (by simp)

theorem episodeMiss_shape :
    ∃ rest, calls (episodeMiss env cdnBase id season episode h).2 =
        .fetchTMDBEpisodeMetadata id season episode :: rest ∧
      rest.countP Event.isMetadataFetch = 0 ∧
      (∀ p, Event.uploadToBunny p ∈ rest →
        p = "metadata/episode_" ++ id ++ "_s" ++ season ++ "_e" ++ episode ++ ".json" ∨
        p = "images/episode/episode_" ++ id ++ "_s" ++ season ++ "_e" ++ episode ++ ".jpg") ∧
      match (fetchTMDBEpisodeMetadata env id season episode h).1 with
      | .error _ => rest = []
      | .ok md =>
        rest.countP (Event.isUploadTo
          ("metadata/episode_" ++ id ++ "_s" ++ season ++ "_e" ++ episode ++ ".json")) = 1 ∧
        rest.countP Event.isImageFetch ≤ (if md.still_path.truthy then 1 else 0) ∧
        rest.countP (Event.isUploadTo
          ("images/episode/episode_" ++ id ++ "_s" ++ season ++ "_e" ++ episode ++ ".jpg")) ≤
          (if md.still_path.truthy then 1 else 0) ∧
        (∀ ref, Event.fetchImageWithRetry ref ∈ rest →
          ref.truthy = true ∧ ref = md.still_path) ∧
        ∀ ref, rest.countP (Event.isImageFetchOf ref) ≤
          (if md.still_path.truthy && md.still_path == ref then 1 else 0) := by
  rcases hf : fetchTMDBEpisodeMetadata env id season episode h with ⟨e | md, e1⟩
  · obtain ⟨_, h2⟩ := episodeMiss_fetch_error env cdnBase id season episode h hf
    exact ⟨[], h2, rfl, by simp, rfl⟩
  · rcases hu : uploadToBunny env
      ("metadata/episode_" ++ id ++ "_s" ++ season ++ "_e" ++ episode ++ ".json")
      (.episodeJson md) (h ++ e1) with ⟨e | ⟨⟩, e2⟩
    · obtain ⟨_, h2⟩ := episodeMiss_upload_error env cdnBase id season episode h hf hu
      refine ⟨_, h2, ?_, ?_, ?_⟩
      · simp [Event.isMetadataFetch]
      · simp
      · simp [Event.isUploadTo, Event.isImageFetch, Event.isImageFetchOf,
          episodeImage_ne_metadata, episodeMetadata_ne_image]
    · obtain ⟨_, h2⟩ := episodeMiss_uploaded env cdnBase id season episode h hf hu
      rcases imageCalls_cases env md.still_path
          ("images/episode/episode_" ++ id ++ "_s" ++ season ++ "_e" ++ episode ++ ".jpg")
          (h ++ e1 ++ e2)
        with ⟨hpt, hpc⟩ | ⟨hpt, hpc | hpc⟩ <;>
      rcases hs : (stillStep env md.still_path
          ("images/episode/episode_" ++ id ++ "_s" ++ season ++ "_e" ++ episode ++ ".jpg")
          (h ++ e1 ++ e2)).1 with e | u <;>
      rw [hpc, hs] at h2 <;>
      refine ⟨_, h2, ?_⟩ <;>
      simp [hpt, Event.isMetadataFetch, Event.isUploadTo, Event.isImageFetch,
        Event.isImageFetchOf, episodeImage_ne_metadata, episodeMetadata_ne_image] <;>
      intro ref <;>
      by_cases h1 : md.still_path = ref <;>
      simp [List.countP_cons, Event.isImageFetchOf, h1]

theorem episodeMiss_item (item : Item)
    (hitem : (episodeMiss env cdnBase id season episode h).1 = .ok item) :
    item.from_ = "tmdb" ∧
      item.metaUrl = cdnBase ++ "/"
        ++ ("metadata/episode_" ++ id ++ "_s" ++ season ++ "_e" ++ episode ++ ".json") ∧
      item.imageUrl = cdnBase ++ "/"
        ++ ("images/episode/episode_" ++ id ++ "_s" ++ season ++ "_e" ++ episode ++ ".jpg") ∧
      item.backdropUrl = .absent ∧
      ∃ md, (fetchTMDBEpisodeMetadata env id season episode h).1 = .ok md ∧
        item.metadata = some (.episode md) := by
  rcases hf : fetchTMDBEpisodeMetadata env id season episode h with ⟨e | md, e1⟩
  · obtain ⟨h1, _⟩ := episodeMiss_fetch_error env cdnBase id season episode h hf
    rw [h1] at hitem
    exact absurd hitem (by simp)
  · rcases hu : uploadToBunny env
      ("metadata/episode_" ++ id ++ "_s" ++ season ++ "_e" ++ episode ++ ".json")
      (.episodeJson md) (h ++ e1) with ⟨e | ⟨⟩, e2⟩
    · obtain ⟨h1, _⟩ := episodeMiss_upload_error env cdnBase id season episode h hf hu
      rw [h1] at hitem
      exact absurd hitem (by simp)
    · obtain ⟨h1, _⟩ := episodeMiss_uploaded env cdnBase id season episode h hf hu
      rw [h1] at hitem
      split at hitem
      · exact absurd hitem (by simp)
      · split at hitem
        · simp only [Except.ok.injEq] at hitem
          subst hitem
          exact ⟨rfl, rfl, rfl, rfl, md, rfl, rfl⟩
        · exact absurd hitem (by simp)

end Shapes

theorem isCall_of_isMetadataFetch (e : Event) (he : e.isMetadataFetch = true) :
    e.isCall = true := by
  cases e <;> simp_all [Event.isMetadataFetch, Event.isCall]

theorem isCall_of_isImageFetch (e : Event) (he : e.isImageFetch = true) :
    e.isCall = true := by
  cases e <;> simp_all [Event.isImageFetch, Event.isCall]

theorem isCall_of_isImageFetchOf (ref : JsVal) (e : Event)
    (he : e.isImageFetchOf ref = true) : e.isCall = true := by
  cases e <;> simp_all [Event.isImageFetchOf, Event.isCall]

theorem isCall_of_isUpload (e : Event) (he : e.isUpload = true) : e.isCall = true := by
  cases e <;> simp_all [Event.isUpload, Event.isCall]

theorem isCall_of_isUploadTo (path : String) (e : Event) (he : e.isUploadTo path = true) :
    e.isCall = true := by
  cases e <;> simp_all [Event.isUploadTo, Event.isCall]

theorem showFlow_miss_calls (env : Env) (cdnBase id type : String) (h : History)
    (hc : (checkIfExists env ("metadata/" ++ type ++ "_" ++ id ++ ".json") h).1 = .ok false) :
    calls (showFlow env cdnBase id type h).2 =
      .checkIfExists ("metadata/" ++ type ++ "_" ++ id ++ ".json") ::
        calls (showMiss env cdnBase id type
          (h ++ (checkIfExists env ("metadata/" ++ type ++ "_" ++ id ++ ".json") h).2)).2 := by
  rw [showFlow_miss env cdnBase id type h hc]
  simp only [calls_append, calls_checkIfExists, List.singleton_append]

theorem episodeFlow_miss_calls (env : Env) (cdnBase id season episode : String) (h : History)
    (hc : (checkIfExists env
      ("metadata/episode_" ++ id ++ "_s" ++ season ++ "_e" ++ episode ++ ".json") h).1
        = .ok false) :
    calls (episodeFlow env cdnBase id season episode h).2 =
      .checkIfExists
          ("metadata/episode_" ++ id ++ "_s" ++ season ++ "_e" ++ episode ++ ".json") ::
        calls (episodeMiss env cdnBase id season episode
          (h ++ (checkIfExists env
            ("metadata/episode_" ++ id ++ "_s" ++ season ++ "_e" ++ episode ++ ".json") h).2)).2
    := by
  rw [episodeFlow_miss env cdnBase id season episode h hc]
  simp only [calls_append, calls_checkIfExists, List.singleton_append]

theorem checkIfExists_found (env : Env) (path : String) (h : History) :
    ∃ found, (checkIfExists env path h).1 = .ok found ∧
      (found = true ↔
        env.head (h ++ [.checkIfExists path]) (str env.CDN_BASE_URL ++ "/" ++ path) = .ok 200) := by
  rw [checkIfExists_run]
  refine ⟨_, rfl, ?_⟩
  cases hh : env.head (h ++ [.checkIfExists path]) (str env.CDN_BASE_URL ++ "/" ++ path) with
  | error e => simp
  | ok status => simp

theorem checkIfExists_false (env : Env) (path : String) (h : History)
    (hprobe : env.head (h ++ [.checkIfExists path]) (str env.CDN_BASE_URL ++ "/" ++ path)
      ≠ .ok 200) :
    (checkIfExists env path h).1 = .ok false := by
  obtain ⟨found, hfound, hiff⟩ := checkIfExists_found env path h
  rw [hfound]
  cases found with
  | false => rfl
  | true => exact absurd (hiff.1 rfl) hprobe

section FlowShapes

variable (env : Env) (cdnBase id type season episode : String) (h : History)

theorem showFlow_shape :
    ∃ rest, calls (showFlow env cdnBase id type h).2 =
        .checkIfExists ("metadata/" ++ type ++ "_" ++ id ++ ".json") :: rest ∧
      ∀ p, Event.uploadToBunny p ∈ rest →
        p = "metadata/" ++ type ++ "_" ++ id ++ ".json" ∨
        p = "images/poster/" ++ type ++ "_" ++ id ++ ".jpg" ∨
        p = "images/backdrop/" ++ type ++ "_" ++ id ++ ".jpg" := by
  obtain ⟨found, hfound, _⟩ :=
    checkIfExists_found env ("metadata/" ++ type ++ "_" ++ id ++ ".json") h
  cases found with
  | true =>
    rw [showFlow_hit env cdnBase id type h hfound]
    exact ⟨[], by simp [calls_cons, calls_nil, Event.isCall], by simp⟩
  | false =>
    rw [showFlow_miss_calls env cdnBase id type h hfound]
    obtain ⟨rest, hrest, _, hup, _⟩ := showMiss_shape env cdnBase id type
      (h ++ (checkIfExists env ("metadata/" ++ type ++ "_" ++ id ++ ".json") h).2)
    refine ⟨_, by rw [hrest], ?_⟩
    intro p hp
    simp only [List.mem_cons] at hp
    rcases hp with hp | hp
    · exact absurd hp (by simp)
    · exact hup p hp

theorem showFlow_item (item : Item) (hitem : (showFlow env cdnBase id type h).1 = .ok item) :
    item.metaUrl = cdnBase ++ "/" ++ ("metadata/" ++ type ++ "_" ++ id ++ ".json") ∧
      item.imageUrl = cdnBase ++ "/" ++ ("images/poster/" ++ type ++ "_" ++ id ++ ".jpg") ∧
      (item.backdropUrl = .null ∨ item.backdropUrl =
        .url (cdnBase ++ "/" ++ ("images/backdrop/" ++ type ++ "_" ++ id ++ ".jpg"))) := by
  obtain ⟨found, hfound, _⟩ :=
    checkIfExists_found env ("metadata/" ++ type ++ "_" ++ id ++ ".json") h
  cases found with
  | true =>
    rw [showFlow_hit env cdnBase id type h hfound] at hitem
    simp only [Except.ok.injEq] at hitem
    subst hitem
    exact ⟨rfl, rfl, Or.inr rfl⟩
  | false =>
    rw [showFlow_miss env cdnBase id type h hfound] at hitem
    obtain ⟨_, h2, h3, h4, _⟩ := showMiss_item env cdnBase id type _ item hitem
    exact ⟨h2, h3, h4⟩

theorem episodeFlow_shape :
    ∃ rest, calls (episodeFlow env cdnBase id season episode h).2 =
        .checkIfExists
          ("metadata/episode_" ++ id ++ "_s" ++ season ++ "_e" ++ episode ++ ".json") :: rest ∧
      ∀ p, Event.uploadToBunny p ∈ rest →
        p = "metadata/episode_" ++ id ++ "_s" ++ season ++ "_e" ++ episode ++ ".json" ∨
        p = "images/episode/episode_" ++ id ++ "_s" ++ season ++ "_e" ++ episode ++ ".jpg" := by
  obtain ⟨found, hfound, _⟩ := checkIfExists_found env
    ("metadata/episode_" ++ id ++ "_s" ++ season ++ "_e" ++ episode ++ ".json") h
  cases found with
  | true =>
    rw [episodeFlow_hit env cdnBase id season episode h hfound]
    exact ⟨[], by simp [calls_cons, calls_nil, Event.isCall], by simp⟩
  | false =>
    rw [episodeFlow_miss_calls env cdnBase id season episode h hfound]
    obtain ⟨rest, hrest, _, hup, _⟩ := episodeMiss_shape env cdnBase id season episode
      (h ++ (checkIfExists env
        ("metadata/episode_" ++ id ++ "_s" ++ season ++ "_e" ++ episode ++ ".json") h).2)
    refine ⟨_, by rw [hrest], ?_⟩
    intro p hp
    simp only [List.mem_cons] at hp
    rcases hp with hp | hp
    · exact absurd hp (by simp)
    · exact hup p hp

theorem episodeFlow_item (item : Item)
    (hitem : (episodeFlow env cdnBase id season episode h).1 = .ok item) :
    item.metaUrl = cdnBase ++ "/"
        ++ ("metadata/episode_" ++ id ++ "_s" ++ season ++ "_e" ++ episode ++ ".json") ∧
      item.imageUrl = cdnBase ++ "/"
        ++ ("images/episode/episode_" ++ id ++ "_s" ++ season ++ "_e" ++ episode ++ ".jpg") ∧
      item.backdropUrl = .absent := by
  obtain ⟨found, hfound, _⟩ := checkIfExists_found env
    ("metadata/episode_" ++ id ++ "_s" ++ season ++ "_e" ++ episode ++ ".json") h
  cases found with
  | true =>
    rw [episodeFlow_hit env cdnBase id season episode h hfound] at hitem
    simp only [Except.ok.injEq] at hitem
    subst hitem
    exact ⟨rfl, rfl, rfl⟩
  | false =>
    rw [episodeFlow_miss env cdnBase id season episode h hfound] at hitem
    obtain ⟨_, h2, h3, h4, _⟩ := episodeMiss_item env cdnBase id season episode _ item hitem
    exact ⟨h2, h3, h4⟩

end FlowShapes

theorem respond_item (r : Except JsError Item) (item : Item)
    (hr : respond r = { status := 200, body := .item item }) : r = .ok item := by
  cases r with
  | error e => simp [respond] at hr
  | ok item' =>
    simp only [respond, Response.mk.injEq, Body.item.injEq, true_and] at hr
    rw [hr]

theorem entryOf_item (id : String) (r : Except JsError Item) (item : Item)
    (hr : entryOf id r = .item id item) : r = .ok item := by
  cases r with
  | error e => simp [entryOf] at hr
  | ok item' =>
    simp only [entryOf, BatchEntry.item.injEq, true_and] at hr
    rw [hr]

/-! ## Injectivity of the metadata path -/

theorem split_at_last {c : Char} :
    ∀ (xs xs' ys ys' : List Char), c ∉ ys → c ∉ ys' →
      xs ++ c :: ys = xs' ++ c :: ys' → xs = xs' ∧ ys = ys' := by
  intro xs
  induction xs with
  | nil =>
    intro xs' ys ys' hy hy' heq
    cases xs' with
    | nil =>
      simp only [List.nil_append, List.cons.injEq, true_and] at heq
      exact ⟨rfl, heq⟩
    | cons x xs' =>
      simp only [List.nil_append, List.cons_append, List.cons.injEq] at heq
      exact absurd (heq.2 ▸ (by simp : c ∈ xs' ++ c :: ys')) hy
  | cons x xs ih =>
    intro xs' ys ys' hy hy' heq
    cases xs' with
    | nil =>
      simp only [List.nil_append, List.cons_append, List.cons.injEq] at heq
      exact absurd (heq.2 ▸ (by simp : c ∈ xs ++ c :: ys)) hy'
    | cons x' xs' =>
      simp only [List.cons_append, List.cons.injEq] at heq
      obtain ⟨h1, h2⟩ := ih xs' ys ys' hy hy' heq.2
      exact ⟨by rw [heq.1, h1], h2⟩

theorem episodeMetadata_inj (id season episode id' season' episode' : String)
    (hs : '_' ∉ season.data) (he : '_' ∉ episode.data)
    (hs' : '_' ∉ season'.data) (he' : '_' ∉ episode'.data)
    (heq : Layout.episodeMetadata id season episode
      = Layout.episodeMetadata id' season' episode') :
    id = id' ∧ season = season' ∧ episode = episode' := by
  have hd := congrArg String.data heq
  simp only [Layout.episodeMetadata, String.data_append] at hd
  have hd' : (id.data ++ '_' :: 's' :: season.data) ++ '_' :: ('e' :: (episode.data ++ ".json".data))
      = (id'.data ++ '_' :: 's' :: season'.data)
        ++ '_' :: ('e' :: (episode'.data ++ ".json".data)) := by
    have hpre : "metadata/episode_".data ++
          (id.data ++ ("_s".data ++ (season.data ++ ("_e".data
            ++ (episode.data ++ ".json".data))))) =
        "metadata/episode_".data ++
          (id'.data ++ ("_s".data ++ (season'.data ++ ("_e".data
            ++ (episode'.data ++ ".json".data))))) := by
      simpa only [List.append_assoc] using hd
    have := List.append_cancel_left hpre
    simpa [List.append_assoc] using this
  have hjson : '_' ∉ ".json".data := by decide
  obtain ⟨h1, h2⟩ := split_at_last _ _ _ _
    (by simp [he, hjson]) (by simp [he', hjson]) hd'
  simp only [List.cons.injEq, true_and] at h2
  have hep := List.append_cancel_right h2
  obtain ⟨h3, h4⟩ := split_at_last (c := '_') id.data id'.data ('s' :: season.data)
    ('s' :: season'.data) (by simp [hs]) (by simp [hs']) h1
  simp only [List.cons.injEq, true_and] at h4
  exact ⟨String.ext h3, String.ext h4, String.ext hep⟩

theorem metadata_inj (type id type' id' : String)
    (ht : type = "movie" ∨ type = "tv") (ht' : type' = "movie" ∨ type' = "tv")
    (heq : Layout.metadata type id = Layout.metadata type' id') :
    type = type' ∧ id = id' := by
  have hd := congrArg String.data heq
  simp only [Layout.metadata, String.data_append] at hd
  rcases ht with rfl | rfl <;> rcases ht' with rfl | rfl <;> simp at hd
  · exact ⟨rfl, String.ext hd⟩
  · exact ⟨rfl, String.ext hd⟩

theorem metadata_ne_episodeMetadata (type id id' season episode : String)
    (ht : type = "movie" ∨ type = "tv") :
    Layout.metadata type id ≠ Layout.episodeMetadata id' season episode := by
  intro heq
  have hd := congrArg String.data heq
  simp only [Layout.metadata, Layout.episodeMetadata, String.data_append] at hd
  rcases ht with rfl | rfl <;> simp at hd

theorem getMetadata_probedPath (env : Env) (query : Query) (h : History)
    (hvalid : query.invalid = false) :
    probedPath (getMetadata env query h).2 =
      some (if query.isEpisode then
          Layout.episodeMetadata (str query.id) (str query.season) (str query.episode)
        else Layout.metadata (str query.type) (str query.id)) := by
  by_cases hep : query.isEpisode = true
  · rw [getMetadata_episode env query h hvalid hep]
    obtain ⟨rest, hrest, _⟩ := episodeFlow_shape env (str env.CDN_BASE_URL) (str query.id)
      (str query.season) (str query.episode) h
    simp only [probedPath, hrest, hep, if_true, Layout.episodeMetadata]
  · simp only [Bool.not_eq_true] at hep
    rw [getMetadata_show env query h hvalid hep]
    obtain ⟨rest, hrest, _⟩ := showFlow_shape env (str env.CDN_BASE_URL) (str query.id)
      (str query.type) h
    simp only [probedPath, hrest, hep, Bool.false_eq_true, if_false, Layout.metadata]

theorem valid_query (query : Query) (hvalid : query.invalid = false) :
    (∃ id, query.id = some id) ∧
      (query.type = some "movie" ∨ query.type = some "tv") := by
  have hnot : ¬ (query.id = none ∨ query.id = some "" ∨
      (query.type ≠ some "movie" ∧ query.type ≠ some "tv")) := by
    rw [← invalid_iff]
    simpa [Query.invalid] using hvalid
  constructor
  · rcases hid : query.id with _ | id
    · exact absurd (Or.inl hid) hnot
    · exact ⟨id, rfl⟩
  · by_contra hcon
    exact hnot (Or.inr (Or.inr ⟨fun hm => hcon (Or.inl hm), fun ht => hcon (Or.inr ht)⟩))

theorem episode_query (query : Query) (hep : query.isEpisode = true) :
    query.type = some "tv" ∧ (∃ season, query.season = some season) ∧
      ∃ episode, query.episode = some episode := by
  simp only [Query.isEpisode, Bool.and_eq_true, beq_iff_eq] at hep
  obtain ⟨⟨ht, hs⟩, he⟩ := hep
  refine ⟨ht, ?_, ?_⟩
  · rcases hse : query.season with _ | season
    · rw [hse] at hs
      simp [truthy] at hs
    · exact ⟨season, rfl⟩
  · rcases hee : query.episode with _ | episode
    · rw [hee] at he
      simp [truthy] at he
    · exact ⟨episode, rfl⟩

theorem mem_calls_of_isCall {e : Event} {events : List Event} (he : e ∈ events)
    (hc : e.isCall = true) : e ∈ calls events := by
  simp only [calls, List.mem_filter]
  exact ⟨he, hc⟩

/-! ## Splitting and trimming -/

theorem intercalate_go_data (acc : String) (items : List String) :
    (String.intercalate.go acc "," items).data = acc.data ++ commaTail items := by
  induction items generalizing acc with
  | nil => simp [String.intercalate.go, commaTail]
  | cons item items ih =>
    simp only [String.intercalate.go, ih, commaTail, String.data_append]
    simp

theorem intercalate_data (item : String) (items : List String) :
    (",".intercalate (item :: items)).data = item.data ++ commaTail items := by
  simp only [String.intercalate, intercalate_go_data]

theorem splitChars_ne_nil (cs : List Char) : splitChars ',' cs ≠ [] := by
  induction cs with
  | nil => simp [splitChars]
  | cons c cs ih =>
    simp only [splitChars]
    split
    · simp
    · split <;> simp

theorem splitChars_no_comma (cs : List Char) :
    ∀ piece ∈ splitChars ',' cs, ',' ∉ piece := by
  induction cs with
  | nil => simp [splitChars]
  | cons c cs ih =>
    intro piece hp
    simp only [splitChars] at hp
    split at hp
    · simp only [List.mem_cons] at hp
      rcases hp with rfl | hp
      · simp
      · exact ih piece hp
    · rename_i hc
      split at hp
      · rename_i hnil
        exact absurd hnil (splitChars_ne_nil cs)
      · rename_i p ps hsplit
        simp only [List.mem_cons] at hp
        rcases hp with rfl | hp
        · have := ih p (by rw [hsplit]; simp)
          simp only [List.mem_cons, not_or]
          exact ⟨fun h => hc h.symm, this⟩
        · exact ih piece (by rw [hsplit]; simp [hp])

theorem splitChars_join (cs : List Char) :
    ∃ piece pieces, splitChars ',' cs = piece :: pieces ∧
      cs = piece ++ commaTail (pieces.map String.mk) := by
  induction cs with
  | nil => exact ⟨[], [], rfl, rfl⟩
  | cons c cs ih =>
    obtain ⟨p, ps, hsplit, hcs⟩ := ih
    simp only [splitChars, hsplit]
    split
    · rename_i hc
      refine ⟨[], p :: ps, rfl, ?_⟩
      simp only [List.map_cons, commaTail, List.nil_append, hc, List.cons_append]
      rw [← hcs]
    · refine ⟨c :: p, ps, rfl, ?_⟩
      simp only [List.cons_append]
      rw [← hcs]

theorem splitChars_unique :
    ∀ (items : List String), (∀ item ∈ items, ',' ∉ item.data) →
      ∀ (piece : List Char), ',' ∉ piece →
        splitChars ',' (piece ++ commaTail items) = piece :: items.map String.data := by
  intro items
  induction items with
  | nil =>
    intro _ piece hp
    induction piece with
    | nil => rfl
    | cons c piece ih =>
      simp only [List.mem_cons, not_or] at hp
      have hc : ¬ c = ',' := fun h => hp.1 h.symm
      simp only [commaTail, List.append_nil] at ih ⊢
      simp only [splitChars, hc, if_false, ih hp.2, List.map_nil]
  | cons item items ihItems =>
    intro hitems piece hp
    have hrest := ihItems (fun i hi => hitems i (by simp [hi])) item.data
      (hitems item (by simp))
    induction piece with
    | nil =>
      have hstep : splitChars ',' (',' :: (item.data ++ commaTail items)) =
          [] :: splitChars ',' (item.data ++ commaTail items) := by
        simp only [splitChars, if_true]
      simp only [commaTail, List.nil_append, List.cons_append, hstep, hrest, List.map_cons]
    | cons c piece ih =>
      simp only [List.mem_cons, not_or] at hp
      have hc : ¬ c = ',' := fun h => hp.1 h.symm
      have hstep : splitChars ',' (c :: (piece ++ commaTail (item :: items))) =
          match splitChars ',' (piece ++ commaTail (item :: items)) with
          | [] => [[c]]
          | p :: ps => (c :: p) :: ps := by
        simp only [splitChars, hc, if_false]
      rw [List.cons_append, hstep, ih hp.2]

theorem commaItems_split (s : String) : CommaItems (split s) s := by
  obtain ⟨p, ps, hsplit, hcs⟩ := splitChars_join s.data
  refine ⟨?_, ?_, ?_⟩
  · simp [split, splitChars_ne_nil]
  · intro item hitem
    simp only [split, List.mem_map] at hitem
    obtain ⟨piece, hpiece, rfl⟩ := hitem
    exact splitChars_no_comma s.data piece hpiece
  · apply String.ext
    simp only [split, hsplit, List.map_cons, intercalate_data]
    exact hcs.symm

theorem commaItems_unique (items : List String) (s : String) (h : CommaItems items s) :
    items = split s := by
  obtain ⟨hne, hno, hjoin⟩ := h
  cases items with
  | nil => exact absurd rfl hne
  | cons item items =>
    have hdata := congrArg String.data hjoin
    rw [intercalate_data] at hdata
    have := splitChars_unique items (fun i hi => hno i (by simp [hi])) item.data
      (hno item (by simp))
    rw [hdata] at this
    have hmk : ∀ l : List String, l.map (String.mk ∘ String.data) = l := by
      intro l
      induction l with
      | nil => rfl
      | cons a l ih => simp only [List.map_cons, Function.comp_apply, ih]
    simp only [split, this, List.map_cons, List.map_map, hmk]

theorem isWhiteSpace_table :
    isWhiteSpace ' ' = true ∧ isWhiteSpace (Char.ofNat 9) = true ∧
      isWhiteSpace (Char.ofNat 10) = true ∧ isWhiteSpace (Char.ofNat 13) = true ∧
      isWhiteSpace (Char.ofNat 160) = true ∧ isWhiteSpace (Char.ofNat 65279) = true ∧
      isWhiteSpace 'a' = false ∧ isWhiteSpace ',' = false ∧ isWhiteSpace '0' = false := by
  decide

theorem dropWhile_all {p : Char → Bool} :
    ∀ (pre rest : List Char), (∀ c ∈ pre, p c = true) →
      (pre ++ rest).dropWhile p = rest.dropWhile p := by
  intro pre
  induction pre with
  | nil => intro rest _; rfl
  | cons c pre ih =>
    intro rest hpre
    simp only [List.cons_append, List.dropWhile_cons, hpre c (by simp), if_true]
    exact ih rest (fun c hc => hpre c (by simp [hc]))

theorem dropWhile_head {p : Char → Bool} (rest : List Char)
    (h : ∀ c, rest.head? = some c → p c = false) : rest.dropWhile p = rest := by
  cases rest with
  | nil => rfl
  | cons c rest => simp [List.dropWhile_cons, h c rfl]

theorem isTrimOf_trim (s : String) : IsTrimOf (trim s) s := by
  have h1 := List.takeWhile_append_dropWhile isWhiteSpace s.data
  have h2 := List.takeWhile_append_dropWhile isWhiteSpace
    (s.data.dropWhile isWhiteSpace).reverse
  have h3 : s.data.dropWhile isWhiteSpace =
      ((s.data.dropWhile isWhiteSpace).reverse.dropWhile isWhiteSpace).reverse ++
        ((s.data.dropWhile isWhiteSpace).reverse.takeWhile isWhiteSpace).reverse := by
    rw [← List.reverse_append, h2, List.reverse_reverse]
  refine ⟨s.data.takeWhile isWhiteSpace,
    ((s.data.dropWhile isWhiteSpace).reverse.takeWhile isWhiteSpace).reverse, ?_, ?_, ?_, ?_, ?_⟩
  · simp only [trim, List.append_assoc]
    rw [← h3, h1]
  · intro c hc
    exact List.mem_takeWhile_imp hc
  · intro c hc
    exact List.mem_takeWhile_imp (List.mem_reverse.1 hc)
  · intro c hc
    simp only [trim] at hc
    have hhead : (s.data.dropWhile isWhiteSpace).head? = some c := by
      rw [h3, List.head?_append, hc]
      rfl
    have := List.head?_dropWhile_not isWhiteSpace s.data
    rw [hhead] at this
    exact this
  · intro c hc
    simp only [trim, List.getLast?_reverse] at hc
    have := List.head?_dropWhile_not isWhiteSpace (s.data.dropWhile isWhiteSpace).reverse
    rw [hc] at this
    exact this

theorem isTrimOf_unique (t s : String) (h : IsTrimOf t s) : t = trim s := by
  obtain ⟨pre, post, hs, hpre, hpost, hhead, hlast⟩ := h
  apply String.ext
  simp only [trim, hs, List.append_assoc]
  rw [dropWhile_all pre _ hpre]
  rcases ht : t.data with _ | ⟨c, cs⟩
  · simp only [List.nil_append]
    have : post.dropWhile isWhiteSpace = [] := List.dropWhile_eq_nil_iff.2 hpost
    simp [this]
  · rw [← ht]
    have hd : (t.data ++ post).dropWhile isWhiteSpace = t.data ++ post := by
      apply dropWhile_head
      intro c' hc'
      apply hhead
      rw [ht] at hc' ⊢
      simpa using hc'
    rw [hd, List.reverse_append, dropWhile_all post.reverse _
      (fun c hc => hpost c (List.mem_reverse.1 hc))]
    rw [dropWhile_head t.data.reverse (fun c' hc' => hlast c' (by
      rw [← List.head?_reverse]; exact hc')), List.reverse_reverse]

theorem identifiers_idList (ids : String) : Identifiers ids (idList ids) := by
  refine ⟨split ids, (split ids).map trim, commaItems_split ids, ?_, rfl⟩
  rw [List.forall₂_map_left_iff, List.forall₂_same]
  intro item _
  exact isTrimOf_trim item

theorem forall₂_isTrimOf (trimmed items : List String)
    (h : List.Forall₂ IsTrimOf trimmed items) : trimmed = items.map trim := by
  induction h with
  | nil => rfl
  | cons hhead _ ih => rw [List.map_cons, ← ih, isTrimOf_unique _ _ hhead]

theorem identifiers_unique (ids : String) (identifiers : List String)
    (h : Identifiers ids identifiers) : identifiers = idList ids := by
  obtain ⟨items, trimmed, hitems, htrim, rfl⟩ := h
  have hsplit := commaItems_unique items ids hitems
  subst hsplit
  rw [forall₂_isTrimOf _ _ htrim, idList]

/-! ## The claims -/

/-- C7: for both retry components, called with `retries = n ≥ 1` (the fetcher with a
present image path): if every attempt fails, the remote is requested exactly `n`
times and the error thrown is that of the `n`-th attempt; if the `k`-th attempt
(`1 ≤ k ≤ n`) is the first to succeed, the remote is requested exactly `k` times
and the response of that attempt is returned. -/
theorem C7_retry_attempts (env : Env) (h : History) (n delay : Nat) (hn : 1 ≤ n) :
    (∀ (url : String) (errs : Nat → JsError),
      (∀ j, j < n → env.getJson (h ++ failedAttempts url delay j) url = .error (errs j)) →
      (fetchWithRetry env url n delay h).1 = .error (errs (n - 1)) ∧
        (fetchWithRetry env url n delay h).2.countP Event.isRemoteGet = n) ∧
    (∀ (url : String) (k : Nat) (res : Option TmdbData), 1 ≤ k → k ≤ n →
      (∀ j, j < k - 1 → ∃ e, env.getJson (h ++ failedAttempts url delay j) url = .error e) →
      env.getJson (h ++ failedAttempts url delay (k - 1)) url = .ok res →
      (fetchWithRetry env url n delay h).1 = .ok (some res) ∧
        (fetchWithRetry env url n delay h).2.countP Event.isRemoteGet = k) ∧
    (∀ (path : JsVal) (errs : Nat → JsError), path.truthy = true →
      (∀ j, j < n →
        env.getBytes (h ++ .fetchImageWithRetry path :: failedAttempts (imageUrlOf path) delay j)
          (imageUrlOf path) = .error (errs j)) →
      (fetchImageWithRetry env path n delay h).1 = .error (errs (n - 1)) ∧
        (fetchImageWithRetry env path n delay h).2.countP Event.isRemoteGet = n) ∧
    (∀ (path : JsVal) (k : Nat) (res : Buffer), path.truthy = true → 1 ≤ k → k ≤ n →
      (∀ j, j < k - 1 → ∃ e,
        env.getBytes (h ++ .fetchImageWithRetry path :: failedAttempts (imageUrlOf path) delay j)
          (imageUrlOf path) = .error e) →
      env.getBytes
          (h ++ .fetchImageWithRetry path :: failedAttempts (imageUrlOf path) delay (k - 1))
          (imageUrlOf path) = .ok res →
      (fetchImageWithRetry env path n delay h).1 = .ok (some res) ∧
        (fetchImageWithRetry env path n delay h).2.countP Event.isRemoteGet = k) := by
  refine ⟨?_, ?_, ?_, ?_⟩
  · intro url errs hfail
    rw [fetchWithRetry_fail env url n delay h errs hn hfail]
    refine ⟨rfl, ?_⟩
    simp [List.countP_append, countP_failedAttempts, List.countP_cons, Event.isRemoteGet]
    omega
  · intro url k res hk hkn hfail hok
    rw [fetchWithRetry_success env url n delay (k - 1) h res (by omega) hfail hok]
    refine ⟨rfl, ?_⟩
    simp [List.countP_append, countP_failedAttempts, List.countP_cons, Event.isRemoteGet]
    omega
  · intro path errs hp hfail
    rw [fetchImageWithRetry_fail env path n delay h errs hp hn hfail]
    refine ⟨rfl, ?_⟩
    simp [List.countP_append, countP_failedAttempts, List.countP_cons, Event.isRemoteGet]
    omega
  · intro path k res hp hk hkn hfail hok
    rw [fetchImageWithRetry_success env path n delay (k - 1) h res hp (by omega) hfail hok]
    refine ⟨rfl, ?_⟩
    simp [List.countP_append, countP_failedAttempts, List.countP_cons, Event.isRemoteGet]
    omega

/-- Witness of C7: with three retries against a remote that is down, the metadata
client requests three times and throws the third error. -/
theorem C7_retry_attempts_witness :
    1 ≤ 3 ∧
    (fetchWithRetry envDown "https://api.example/3/movie/1" 3 1000 []).1
        = .error (failure "attempt 3 failed") ∧
      (fetchWithRetry envDown "https://api.example/3/movie/1" 3 1000 []).2.countP
        Event.isRemoteGet = 3 :=
  ⟨by decide,
    (C7_retry_attempts envDown [] 3 1000 (by decide)).1 "https://api.example/3/movie/1"
      (fun j => attemptError (failedAttempts "https://api.example/3/movie/1" 1000 j))
      (fun _ _ => rfl)⟩

/-- C2: for both routes, when the identifier parameter is missing or empty, or `type`
is not exactly "movie" or "tv", the handler answers 400 and performs no event at
all; and a request with a non-empty identifier and a valid type is never answered
with 400: it gets a response with another status (in the batch route, when `ids` is
an array or an object, no response at all). -/
theorem C2_validation (env : Env) (query : Query) (batch : BatchQuery) (h : History) :
    ((query.id = none ∨ query.id = some "" ∨
        (query.type ≠ some "movie" ∧ query.type ≠ some "tv")) →
      getMetadata env query h =
        (.ok { status := 400, body := .error "Invalid or missing \"id\" or \"type\"" }, [])) ∧
    ((batch.ids = .undefined ∨ batch.ids = .str "" ∨
        (batch.type ≠ some "movie" ∧ batch.type ≠ some "tv")) →
      getBatchMetadata env batch h =
        (.ok { status := 400, body := .error "Missing or invalid \"ids\" or \"type\"" }, [])) ∧
    (¬ (query.id = none ∨ query.id = some "" ∨
        (query.type ≠ some "movie" ∧ query.type ≠ some "tv")) →
      ∃ response, (getMetadata env query h).1 = .ok response ∧ response.status ≠ 400) ∧
    (¬ (batch.ids = .undefined ∨ batch.ids = .str "" ∨
        (batch.type ≠ some "movie" ∧ batch.type ≠ some "tv")) →
      (∀ response, (getBatchMetadata env batch h).1 = .ok response → response.status ≠ 400) ∧
      (∀ ids, batch.ids = .str ids →
        ∃ response, (getBatchMetadata env batch h).1 = .ok response ∧
          response.status ≠ 400)) := by
  refine ⟨?_, ?_, ?_, ?_⟩
  · intro hbad
    exact getMetadata_invalid env query h ((invalid_iff query.id query.type).2 hbad)
  · intro hbad
    exact getBatchMetadata_invalid env batch h ((batch_invalid_iff batch.ids batch.type).2 hbad)
  · intro hgood
    have hq : query.invalid = false := by
      rw [← Bool.not_eq_true]
      exact fun hinv => hgood ((invalid_iff query.id query.type).1 hinv)
    exact getMetadata_valid env query h hq
  · intro hgood
    have hq : (!batch.ids.truthy || !includes ["movie", "tv"] batch.type) = false := by
      rw [← Bool.not_eq_true]
      exact fun hinv => hgood ((batch_invalid_iff batch.ids batch.type).1 hinv)
    have hstring : ∀ ids, batch.ids = .str ids →
        ∃ response, (getBatchMetadata env batch h).1 = .ok response ∧
          response.status ≠ 400 := by
      intro ids hids
      obtain ⟨results, hres, _⟩ := getBatchMetadata_valid env batch ids h hq hids
      exact ⟨_, hres, by simp⟩
    refine ⟨?_, hstring⟩
    intro response hresponse
    by_cases hids : ∃ ids, batch.ids = .str ids
    · obtain ⟨ids, hids⟩ := hids
      obtain ⟨response', hres', hstatus⟩ := hstring ids hids
      rw [hres'] at hresponse
      simp only [Except.ok.injEq] at hresponse
      rw [← hresponse]
      exact hstatus
    · rw [getBatchMetadata_not_string env batch h hq
        (fun ids hids' => hids ⟨ids, hids'⟩)] at hresponse
      exact absurd hresponse (by simp)

/-- Witness of C2: a request without `id` is answered 400 without any event. -/
theorem C2_validation_witness :
    getMetadata envHealthy { id := none, type := some "movie", season := none, episode := none }
        [] =
      (.ok { status := 400, body := .error "Invalid or missing \"id\" or \"type\"" }, []) :=
  (C2_validation envHealthy
    { id := none, type := some "movie", season := none, episode := none }
    { ids := .str "1", type := some "tv" } []).1 (Or.inl rfl)

/-- C1, amended: for every accepted batch request whose `ids` is a string, and every
behaviour of the collaborators, the response is a 200 whose results array has one
entry per input identifier, in input order: the list of the entries' `id` fields is
the list of identifiers of `ids`, that is its comma-separated items, each trimmed,
without the blank ones; and that list is the only one. -/
theorem C1_batch_results (env : Env) (ids type : String) (h : History)
    (hids : ids ≠ "") (htype : type = "movie" ∨ type = "tv") :
    ∃ results,
      (getBatchMetadata env { ids := .str ids, type := some type } h).1 =
          .ok { status := 200, body := .results results } ∧
        Identifiers ids (results.map BatchEntry.id) ∧
        ∀ identifiers, Identifiers ids identifiers →
          results.map BatchEntry.id = identifiers ∧ results.length = identifiers.length := by
  have hq : (!(QueryVal.str ids).truthy || !includes ["movie", "tv"] (some type)) = false := by
    rw [← Bool.not_eq_true, batch_invalid_iff]
    rcases htype with rfl | rfl <;> simp [hids]
  obtain ⟨results, hres, hmap⟩ :=
    getBatchMetadata_valid env { ids := .str ids, type := some type } ids h hq rfl
  refine ⟨results, hres, ?_, ?_⟩
  · rw [hmap]
    exact identifiers_idList ids
  · intro identifiers hident
    have heq : results.map BatchEntry.id = identifiers := by
      rw [hmap, identifiers_unique ids identifiers hident]
    refine ⟨heq, ?_⟩
    rw [← heq, List.length_map]

/-- Witness of C1: four items, one of them blank, against a world that is down: three
error entries, for "1", "2" and "3". -/
theorem C1_batch_results_witness :
    "1, 2,,3 " ≠ "" ∧
    (getBatchMetadata envDown { ids := .str "1, 2,,3 ", type := some "movie" } []).1 =
      .ok { status := 200, body := .results [
        .error "1" "attempt 3 failed", .error "2" "attempt 3 failed",
        .error "3" "attempt 3 failed"] } ∧
    ∃ results,
      (getBatchMetadata envDown { ids := .str "1, 2,,3 ", type := some "movie" } []).1 =
          .ok { status := 200, body := .results results } ∧
        Identifiers "1, 2,,3 " (results.map BatchEntry.id) ∧
        ∀ identifiers, Identifiers "1, 2,,3 " identifiers →
          results.map BatchEntry.id = identifiers ∧ results.length = identifiers.length :=
  ⟨by decide, rfl, C1_batch_results envDown "1, 2,,3 " "movie" [] (by decide) (Or.inl rfl)⟩

/-- Counterexample to C1 as stated: a request with a repeated `ids` key passes the
validation, and the handler throws before it builds any result: the request gets
neither a 400 nor a results array. -/
theorem C1_counterexample :
    (!batchRepeated.ids.truthy || !includes ["movie", "tv"] batchRepeated.type) = false ∧
    getBatchMetadata envHealthy batchRepeated [] =
      (.error { message := "ids.split is not a function", code := none }, []) := by
  refine ⟨rfl, rfl⟩

/-- C3: for every valid request of the single route whose metadata path exists, the
response is a 200 with `from = "cdn"`, the CDN URLs of the computed paths and no
metadata, and the only events are the existence check and its HEAD request: no
metadata fetch, no image fetch, no upload and no log write. -/
theorem C3_cache_hit (env : Env) (query : Query) (h : History)
    (hvalid : query.invalid = false) :
    (query.isEpisode = true →
      (checkIfExists env
        (Layout.episodeMetadata (str query.id) (str query.season) (str query.episode)) h).1
          = .ok true →
      getMetadata env query h =
        (.ok { status := 200, body := .item {
            from_ := "cdn"
            metaUrl := Layout.url (str env.CDN_BASE_URL)
              (Layout.episodeMetadata (str query.id) (str query.season) (str query.episode))
            imageUrl := Layout.url (str env.CDN_BASE_URL)
              (Layout.episodeImage (str query.id) (str query.season) (str query.episode))
            backdropUrl := .absent
            metadata := none } },
         [.checkIfExists
            (Layout.episodeMetadata (str query.id) (str query.season) (str query.episode)),
          .axiosHead (Layout.url (str env.CDN_BASE_URL)
            (Layout.episodeMetadata (str query.id) (str query.season) (str query.episode)))])) ∧
    (query.isEpisode = false →
      (checkIfExists env (Layout.metadata (str query.type) (str query.id)) h).1 = .ok true →
      getMetadata env query h =
        (.ok { status := 200, body := .item {
            from_ := "cdn"
            metaUrl := Layout.url (str env.CDN_BASE_URL)
              (Layout.metadata (str query.type) (str query.id))
            imageUrl := Layout.url (str env.CDN_BASE_URL)
              (Layout.poster (str query.type) (str query.id))
            backdropUrl := .url (Layout.url (str env.CDN_BASE_URL)
              (Layout.backdrop (str query.type) (str query.id)))
            metadata := none } },
         [.checkIfExists (Layout.metadata (str query.type) (str query.id)),
          .axiosHead (Layout.url (str env.CDN_BASE_URL)
            (Layout.metadata (str query.type) (str query.id)))])) := by
  constructor
  · intro hep hhit
    rw [getMetadata_episode env query h hvalid hep,
      episodeFlow_hit env (str env.CDN_BASE_URL) (str query.id) (str query.season)
        (str query.episode) h hhit]
    rfl
  · intro hep hhit
    rw [getMetadata_show env query h hvalid hep,
      showFlow_hit env (str env.CDN_BASE_URL) (str query.id) (str query.type) h hhit]
    rfl

/-- Witness of C3: a stored movie is answered from the CDN after one HEAD request. -/
theorem C3_cache_hit_witness :
    getMetadata envStored
        { id := some "603", type := some "movie", season := none, episode := none } [] =
      (.ok { status := 200, body := .item {
          from_ := "cdn"
          metaUrl := "https://cdn.example/metadata/movie_603.json"
          imageUrl := "https://cdn.example/images/poster/movie_603.jpg"
          backdropUrl := .url "https://cdn.example/images/backdrop/movie_603.jpg"
          metadata := none } },
       [.checkIfExists "metadata/movie_603.json",
        .axiosHead "https://cdn.example/metadata/movie_603.json"]) :=
  (C3_cache_hit envStored
    { id := some "603", type := some "movie", season := none, episode := none } [] rfl).2
    rfl rfl

/-- C4, amended: for every valid request of the single route whose existence check
is negative, the handler calls the metadata fetch exactly once.  When that fetch
fails there is no upload and no image fetch.  When it succeeds there is exactly one
upload to the metadata path, the number of `fetchImageWithRetry` calls is at most
the number of present (truthy) image references, every such call is for a present
reference of the fetched metadata, each reference is fetched at most once per field
that holds it, and each image path receives at most one upload, none when its
reference is absent. -/
theorem C4_miss_counts (env : Env) (query : Query) (h : History)
    (hvalid : query.invalid = false) :
    (query.isEpisode = false →
      (checkIfExists env (Layout.metadata (str query.type) (str query.id)) h).1 = .ok false →
      (getMetadata env query h).2.countP Event.isMetadataFetch = 1 ∧
      match (fetchTMDBMetadata env (str query.id) (str query.type)
          (h ++ (checkIfExists env (Layout.metadata (str query.type) (str query.id)) h).2)).1 with
      | .error _ =>
        (getMetadata env query h).2.countP Event.isUpload = 0 ∧
        (getMetadata env query h).2.countP Event.isImageFetch = 0
      | .ok metadata =>
        (getMetadata env query h).2.countP
            (Event.isUploadTo (Layout.metadata (str query.type) (str query.id))) = 1 ∧
        (getMetadata env query h).2.countP Event.isImageFetch ≤
          (if metadata.poster_path.truthy then 1 else 0)
            + (if metadata.backdrop_path.truthy then 1 else 0) ∧
        (getMetadata env query h).2.countP
            (Event.isUploadTo (Layout.poster (str query.type) (str query.id))) ≤
          (if metadata.poster_path.truthy then 1 else 0) ∧
        (getMetadata env query h).2.countP
            (Event.isUploadTo (Layout.backdrop (str query.type) (str query.id))) ≤
          (if metadata.backdrop_path.truthy then 1 else 0) ∧
        (∀ ref, Event.fetchImageWithRetry ref ∈ (getMetadata env query h).2 →
          ref.truthy = true ∧ (ref = metadata.poster_path ∨ ref = metadata.backdrop_path)) ∧
        ∀ ref, (getMetadata env query h).2.countP (Event.isImageFetchOf ref) ≤
          (if metadata.poster_path.truthy && metadata.poster_path == ref then 1 else 0)
            + (if metadata.backdrop_path.truthy && metadata.backdrop_path == ref
                then 1 else 0)) ∧
    (query.isEpisode = true →
      (checkIfExists env
        (Layout.episodeMetadata (str query.id) (str query.season) (str query.episode)) h).1
          = .ok false →
      (getMetadata env query h).2.countP Event.isMetadataFetch = 1 ∧
      match (fetchTMDBEpisodeMetadata env (str query.id) (str query.season) (str query.episode)
          (h ++ (checkIfExists env
            (Layout.episodeMetadata (str query.id) (str query.season) (str query.episode))
            h).2)).1 with
      | .error _ =>
        (getMetadata env query h).2.countP Event.isUpload = 0 ∧
        (getMetadata env query h).2.countP Event.isImageFetch = 0
      | .ok metadata =>
        (getMetadata env query h).2.countP
            (Event.isUploadTo
              (Layout.episodeMetadata (str query.id) (str query.season) (str query.episode)))
          = 1 ∧
        (getMetadata env query h).2.countP Event.isImageFetch ≤
          (if metadata.still_path.truthy then 1 else 0) ∧
        (getMetadata env query h).2.countP
            (Event.isUploadTo
              (Layout.episodeImage (str query.id) (str query.season) (str query.episode))) ≤
          (if metadata.still_path.truthy then 1 else 0) ∧
        (∀ ref, Event.fetchImageWithRetry ref ∈ (getMetadata env query h).2 →
          ref.truthy = true ∧ ref = metadata.still_path) ∧
        ∀ ref, (getMetadata env query h).2.countP (Event.isImageFetchOf ref) ≤
          (if metadata.still_path.truthy && metadata.still_path == ref then 1 else 0)) := by
  constructor
  · intro hep hmiss
    simp only [Layout.metadata, Layout.poster, Layout.backdrop] at hmiss ⊢
    have hcalls := showFlow_miss_calls env (str env.CDN_BASE_URL) (str query.id)
      (str query.type) h hmiss
    obtain ⟨rest, hrest, hmeta, _, hcount⟩ := showMiss_shape env (str env.CDN_BASE_URL)
      (str query.id) (str query.type)
      (h ++ (checkIfExists env ("metadata/" ++ str query.type ++ "_" ++ str query.id ++ ".json")
        h).2)
    rw [hrest] at hcalls
    rw [getMetadata_show env query h hvalid hep]
    have key : ∀ p : Event → Bool, (∀ e, p e = true → e.isCall = true) →
        (showFlow env (str env.CDN_BASE_URL) (str query.id) (str query.type) h).2.countP p =
          (Event.checkIfExists ("metadata/" ++ str query.type ++ "_" ++ str query.id ++ ".json")
            :: Event.fetchTMDBMetadata (str query.id) (str query.type) :: rest).countP p :=
      fun p hp => by rw [countP_calls p hp, hcalls]
    simp only [key _ isCall_of_isMetadataFetch, key _ isCall_of_isUpload,
      key _ isCall_of_isImageFetch, key _ (isCall_of_isUploadTo _),
      key _ (isCall_of_isImageFetchOf _)]
    refine ⟨by simp [Event.isMetadataFetch, hmeta], ?_⟩
    split <;> rename_i hfetch <;> rw [hfetch] at hcount
    · simp only at hcount
      subst hcount
      simp [Event.isUpload, Event.isImageFetch]
    · obtain ⟨c1, c2, c3, c4, c5, c6⟩ := hcount
      refine ⟨?_, ?_, ?_, ?_, ?_, ?_⟩
      · simpa [Event.isUploadTo, metadata_ne_poster, metadata_ne_backdrop] using c1
      · simpa [Event.isImageFetch] using c2
      · simpa [Event.isUploadTo, poster_ne_metadata] using c3
      · simpa [Event.isUploadTo, backdrop_ne_metadata] using c4
      · intro ref hmem
        have hm := mem_calls_of_isCall hmem rfl
        rw [hcalls] at hm
        simp at hm
        exact c5 ref hm
      · intro ref
        simpa [Event.isImageFetchOf] using c6 ref
  · intro hep hmiss
    simp only [Layout.episodeMetadata, Layout.episodeImage] at hmiss ⊢
    have hcalls := episodeFlow_miss_calls env (str env.CDN_BASE_URL) (str query.id)
      (str query.season) (str query.episode) h hmiss
    obtain ⟨rest, hrest, hmeta, _, hcount⟩ := episodeMiss_shape env (str env.CDN_BASE_URL)
      (str query.id) (str query.season) (str query.episode)
      (h ++ (checkIfExists env ("metadata/episode_" ++ str query.id ++ "_s" ++ str query.season
        ++ "_e" ++ str query.episode ++ ".json") h).2)
    rw [hrest] at hcalls
    rw [getMetadata_episode env query h hvalid hep]
    have key : ∀ p : Event → Bool, (∀ e, p e = true → e.isCall = true) →
        (episodeFlow env (str env.CDN_BASE_URL) (str query.id) (str query.season)
          (str query.episode) h).2.countP p =
          (Event.checkIfExists ("metadata/episode_" ++ str query.id ++ "_s" ++ str query.season
              ++ "_e" ++ str query.episode ++ ".json")
            :: Event.fetchTMDBEpisodeMetadata (str query.id) (str query.season)
              (str query.episode) :: rest).countP p :=
      fun p hp => by rw [countP_calls p hp, hcalls]
    simp only [key _ isCall_of_isMetadataFetch, key _ isCall_of_isUpload,
      key _ isCall_of_isImageFetch, key _ (isCall_of_isUploadTo _),
      key _ (isCall_of_isImageFetchOf _)]
    refine ⟨by simp [Event.isMetadataFetch, hmeta], ?_⟩
    split <;> rename_i hfetch <;> rw [hfetch] at hcount
    · simp only at hcount
      subst hcount
      simp [Event.isUpload, Event.isImageFetch]
    · obtain ⟨c1, c2, c3, c4, c5⟩ := hcount
      refine ⟨?_, ?_, ?_, ?_, ?_⟩
      · simpa [Event.isUploadTo, episodeMetadata_ne_image] using c1
      · simpa [Event.isImageFetch] using c2
      · simpa [Event.isUploadTo, episodeImage_ne_metadata] using c3
      · intro ref hmem
        have hm := mem_calls_of_isCall hmem rfl
        rw [hcalls] at hm
        simp at hm
        exact c4 ref hm
      · intro ref
        simpa [Event.isImageFetchOf] using c5 ref

/-- Witness of C4: a movie that is not stored yet, in a world where everything
works: one metadata fetch, one metadata upload, two image fetches, one upload per
image. -/
theorem C4_miss_counts_witness :
    (getMetadata envHealthy
        { id := some "603", type := some "movie", season := none, episode := none } []).2.countP
      Event.isMetadataFetch = 1 ∧
    (getMetadata envHealthy
        { id := some "603", type := some "movie", season := none, episode := none } []).2.countP
      (Event.isUploadTo "metadata/movie_603.json") = 1 ∧
    (getMetadata envHealthy
        { id := some "603", type := some "movie", season := none, episode := none } []).2.countP
      Event.isImageFetch ≤ 1 + 1 ∧
    (getMetadata envHealthy
        { id := some "603", type := some "movie", season := none, episode := none } []).2.countP
      (Event.isUploadTo "images/poster/movie_603.jpg") ≤ 1 ∧
    (getMetadata envHealthy
        { id := some "603", type := some "movie", season := none, episode := none } []).2.countP
      (Event.isUploadTo "images/backdrop/movie_603.jpg") ≤ 1 ∧
    (∀ ref, Event.fetchImageWithRetry ref ∈ (getMetadata envHealthy
        { id := some "603", type := some "movie", season := none, episode := none } []).2 →
      ref.truthy = true ∧ (ref = .str "/p.jpg" ∨ ref = .str "/b.jpg")) ∧
    ∀ ref, (getMetadata envHealthy
        { id := some "603", type := some "movie", season := none, episode := none } []).2.countP
      (Event.isImageFetchOf ref) ≤
        (if (JsVal.str "/p.jpg").truthy && JsVal.str "/p.jpg" == ref then 1 else 0)
          + (if (JsVal.str "/b.jpg").truthy && JsVal.str "/b.jpg" == ref then 1 else 0) :=
  (C4_miss_counts envHealthy
    { id := some "603", type := some "movie", season := none, episode := none } [] rfl).1
    rfl rfl

/-- Counterexample to C4 as stated: a valid request whose existence check is negative
and whose metadata fetch fails performs no upload to the metadata path. -/
theorem C4_counterexample :
    Query.invalid { id := some "603", type := some "movie", season := none, episode := none }
        = false ∧
    (checkIfExists envDown "metadata/movie_603.json" []).1 = .ok false ∧
    (getMetadata envDown
        { id := some "603", type := some "movie", season := none, episode := none } []).1
      = .ok { status := 500, body := .error "Failed to fetch and upload data." } ∧
    (getMetadata envDown
        { id := some "603", type := some "movie", season := none, episode := none } []).2.countP
      (Event.isUploadTo "metadata/movie_603.json") = 0 := by
  refine ⟨rfl, rfl, rfl, rfl⟩

/-- C9: `checkIfExists` never throws, and answers `true` exactly when the HEAD
request completes with status 200; and when the probe fails or completes with
another status, the single route takes the cache-miss flow: the next service call
is the metadata fetch, the response is the one of the miss flow, and it is never
a `from = "cdn"` answer. -/
theorem C9_existence_probe (env : Env) (query : Query) (path : String) (h : History) :
    (∃ found, (checkIfExists env path h).1 = .ok found ∧
      (found = true ↔
        env.head (h ++ [.checkIfExists path]) (Layout.url (str env.CDN_BASE_URL) path)
          = .ok 200)) ∧
    (query.invalid = false → query.isEpisode = false →
      env.head (h ++ [.checkIfExists (Layout.metadata (str query.type) (str query.id))])
          (Layout.url (str env.CDN_BASE_URL) (Layout.metadata (str query.type) (str query.id)))
        ≠ .ok 200 →
      (∃ rest, calls (getMetadata env query h).2 =
        .checkIfExists (Layout.metadata (str query.type) (str query.id)) ::
          .fetchTMDBMetadata (str query.id) (str query.type) :: rest) ∧
      (getMetadata env query h).1 =
        .ok (respond (showMiss env (str env.CDN_BASE_URL) (str query.id) (str query.type)
          (h ++ (checkIfExists env (Layout.metadata (str query.type) (str query.id)) h).2)).1) ∧
      ∀ item, (getMetadata env query h).1 = .ok { status := 200, body := .item item } →
        item.from_ = "tmdb") ∧
    (query.invalid = false → query.isEpisode = true →
      env.head
          (h ++ [.checkIfExists
            (Layout.episodeMetadata (str query.id) (str query.season) (str query.episode))])
          (Layout.url (str env.CDN_BASE_URL)
            (Layout.episodeMetadata (str query.id) (str query.season) (str query.episode)))
        ≠ .ok 200 →
      (∃ rest, calls (getMetadata env query h).2 =
        .checkIfExists
            (Layout.episodeMetadata (str query.id) (str query.season) (str query.episode)) ::
          .fetchTMDBEpisodeMetadata (str query.id) (str query.season) (str query.episode)
            :: rest) ∧
      (getMetadata env query h).1 =
        .ok (respond (episodeMiss env (str env.CDN_BASE_URL) (str query.id) (str query.season)
          (str query.episode)
          (h ++ (checkIfExists env
            (Layout.episodeMetadata (str query.id) (str query.season) (str query.episode))
            h).2)).1) ∧
      ∀ item, (getMetadata env query h).1 = .ok { status := 200, body := .item item } →
        item.from_ = "tmdb") := by
  refine ⟨checkIfExists_found env path h, ?_, ?_⟩
  · intro hvalid hep hprobe
    have hmiss := checkIfExists_false env _ h hprobe
    simp only [Layout.metadata] at hmiss ⊢
    have hcalls := showFlow_miss_calls env (str env.CDN_BASE_URL) (str query.id)
      (str query.type) h hmiss
    obtain ⟨rest, hrest, _⟩ := showMiss_shape env (str env.CDN_BASE_URL)
      (str query.id) (str query.type)
      (h ++ (checkIfExists env ("metadata/" ++ str query.type ++ "_" ++ str query.id ++ ".json")
        h).2)
    rw [hrest] at hcalls
    rw [getMetadata_show env query h hvalid hep]
    refine ⟨⟨rest, hcalls⟩, ?_, ?_⟩
    · rw [showFlow_miss env (str env.CDN_BASE_URL) (str query.id) (str query.type) h hmiss]
    · intro item hitem
      rw [showFlow_miss env (str env.CDN_BASE_URL) (str query.id) (str query.type) h hmiss]
        at hitem
      simp only [Except.ok.injEq] at hitem
      rcases hres : (showMiss env (str env.CDN_BASE_URL) (str query.id) (str query.type)
        (h ++ (checkIfExists env
          ("metadata/" ++ str query.type ++ "_" ++ str query.id ++ ".json") h).2)).1
        with e | item'
      · rw [hres] at hitem
        simp [respond] at hitem
      · rw [hres] at hitem
        simp only [respond, Response.mk.injEq, Body.item.injEq, true_and] at hitem
        subst hitem
        exact (showMiss_item env _ _ _ _ item' hres).1
  · intro hvalid hep hprobe
    have hmiss := checkIfExists_false env _ h hprobe
    simp only [Layout.episodeMetadata] at hmiss ⊢
    have hcalls := episodeFlow_miss_calls env (str env.CDN_BASE_URL) (str query.id)
      (str query.season) (str query.episode) h hmiss
    obtain ⟨rest, hrest, _⟩ := episodeMiss_shape env (str env.CDN_BASE_URL)
      (str query.id) (str query.season) (str query.episode)
      (h ++ (checkIfExists env ("metadata/episode_" ++ str query.id ++ "_s" ++ str query.season
        ++ "_e" ++ str query.episode ++ ".json") h).2)
    rw [hrest] at hcalls
    rw [getMetadata_episode env query h hvalid hep]
    refine ⟨⟨rest, hcalls⟩, ?_, ?_⟩
    · rw [episodeFlow_miss env (str env.CDN_BASE_URL) (str query.id) (str query.season)
        (str query.episode) h hmiss]
    · intro item hitem
      rw [episodeFlow_miss env (str env.CDN_BASE_URL) (str query.id) (str query.season)
        (str query.episode) h hmiss] at hitem
      simp only [Except.ok.injEq] at hitem
      rcases hres : (episodeMiss env (str env.CDN_BASE_URL) (str query.id) (str query.season)
        (str query.episode)
        (h ++ (checkIfExists env ("metadata/episode_" ++ str query.id ++ "_s"
          ++ str query.season ++ "_e" ++ str query.episode ++ ".json") h).2)).1
        with e | item'
      · rw [hres] at hitem
        simp [respond] at hitem
      · rw [hres] at hitem
        simp only [respond, Response.mk.injEq, Body.item.injEq, true_and] at hitem
        subst hitem
        exact (episodeMiss_item env _ _ _ _ _ item' hres).1

/-- Witness of C9: with the store unreachable, a movie request goes on to the
metadata fetch and answers from the upstream API. -/
theorem C9_existence_probe_witness :
    ∀ item,
      (getMetadata envHealthy
          { id := some "603", type := some "movie", season := none, episode := none } []).1
        = .ok { status := 200, body := .item item } →
      item.from_ = "tmdb" :=
  ((C9_existence_probe envHealthy
    { id := some "603", type := some "movie", season := none, episode := none }
    "metadata/movie_603.json" []).2.1 rfl rfl (fun hh => Except.noConfusion hh)).2.2

/-- C5, amended: in the movie/tv cache-miss flow of the single route, when the
metadata fetch, the metadata upload and the log write succeed, the response is a 200
with `from = "tmdb"` and the fetched metadata whatever happens to the image fetches
and uploads; and the poster and the backdrop are handled independently: the service
calls are the check, the metadata fetch, the metadata upload, the calls of the poster
block, the calls of the backdrop block, and the log write, where the calls of a
block are its fetch (when the reference is present) followed by its upload (when
that fetch succeeded). -/
theorem C5_images_not_fatal (env : Env) (query : Query) (h : History)
    (metadata : ShowMetadata) (e1 e2 : List Event)
    (hvalid : query.invalid = false) (hep : query.isEpisode = false)
    (hmiss : (checkIfExists env (Layout.metadata (str query.type) (str query.id)) h).1
      = .ok false)
    (hfetch : fetchTMDBMetadata env (str query.id) (str query.type)
      (h ++ (checkIfExists env (Layout.metadata (str query.type) (str query.id)) h).2)
        = (.ok metadata, e1))
    (hupload : uploadToBunny env (Layout.metadata (str query.type) (str query.id))
      (.showJson metadata)
      (h ++ (checkIfExists env (Layout.metadata (str query.type) (str query.id)) h).2 ++ e1)
        = (.ok (), e2)) :
    let hP := h ++ (checkIfExists env (Layout.metadata (str query.type) (str query.id)) h).2
      ++ e1 ++ e2
    let hB := hP ++ (posterStep env metadata.poster_path
      (Layout.poster (str query.type) (str query.id)) hP).2
    let hL := hB ++ (backdropStep env metadata.backdrop_path
      (Layout.backdrop (str query.type) (str query.id)) hB).2
    (logUpload env (str query.id) (str query.type) "uploaded" hL).1 = .ok () →
      (∃ item, (getMetadata env query h).1 = .ok { status := 200, body := .item item } ∧
        item.from_ = "tmdb" ∧ item.metadata = some (.movieOrTv metadata)) ∧
      calls (getMetadata env query h).2 =
        [.checkIfExists (Layout.metadata (str query.type) (str query.id)),
         .fetchTMDBMetadata (str query.id) (str query.type),
         .uploadToBunny (Layout.metadata (str query.type) (str query.id))]
        ++ imageCalls env metadata.poster_path (Layout.poster (str query.type) (str query.id)) hP
        ++ imageCalls env metadata.backdrop_path
            (Layout.backdrop (str query.type) (str query.id)) hB
        ++ [.logUpload (str query.id) (str query.type) "uploaded"] := by
  intro hP hB hL hlog
  simp only [hL, hB, hP, Layout.metadata, Layout.poster, Layout.backdrop]
    at hmiss hfetch hupload hlog ⊢
  obtain ⟨hres, hcalls⟩ := showMiss_uploaded env (str env.CDN_BASE_URL) (str query.id)
    (str query.type) _ hfetch hupload
  rw [getMetadata_show env query h hvalid hep,
    showFlow_miss env (str env.CDN_BASE_URL) (str query.id) (str query.type) h hmiss]
  constructor
  · simp only [hres, hlog]
    exact ⟨_, rfl, rfl, rfl⟩
  · simp only [calls_append, calls_checkIfExists, hcalls]
    simp

/-- Witness of C5: with the image host down, a movie request is still answered with
a 200 that carries the fetched metadata. -/
theorem C5_images_not_fatal_witness :
    ∃ item, (getMetadata envNoImages movie603 []).1 = .ok { status := 200, body := .item item } ∧
      item.from_ = "tmdb" ∧ item.metadata = some (.movieOrTv sampleMetadata) :=
  (C5_images_not_fatal envNoImages movie603 [] sampleMetadata
    (fetchTMDBMetadata envNoImages "603" "movie" (probed603 envNoImages)).2
    (uploadToBunny envNoImages "metadata/movie_603.json" (.showJson sampleMetadata)
      (fetched603 envNoImages)).2
    rfl rfl rfl rfl rfl rfl).1

/-- Counterexample to C5 as stated: the metadata fetch and the metadata upload
succeed, the poster fetch fails, and the response is a 500, because the log write
fails as well. -/
theorem C5_counterexample :
    (checkIfExists envNoImagesNoLog "metadata/movie_603.json" []).1 = .ok false ∧
    (fetchTMDBMetadata envNoImagesNoLog "603" "movie" (probed603 envNoImagesNoLog)).1
      = .ok sampleMetadata ∧
    (uploadToBunny envNoImagesNoLog "metadata/movie_603.json" (.showJson sampleMetadata)
      (fetched603 envNoImagesNoLog)).1 = .ok () ∧
    (fetchImageWithRetry envNoImagesNoLog sampleMetadata.poster_path 3 1000
      (uploaded603 envNoImagesNoLog)).1 = .error (failure "attempt 3 failed") ∧
    (getMetadata envNoImagesNoLog movie603 []).1
      = .ok { status := 500, body := .error "Failed to fetch and upload data." } := by
  refine ⟨rfl, rfl, rfl, rfl, rfl⟩

/-- The still block of the episode flow is not guarded: the metadata fetch, the
metadata upload and the log write would succeed, the still fetch fails, and the
response is a 500. -/
theorem episode_still_failure_aborts :
    (fetchTMDBEpisodeMetadata envNoImages "1399" "1" "2"
      (checkIfExists envNoImages "metadata/episode_1399_s1_e2.json" []).2).1
      = .ok sampleEpisode ∧
    (fetchImageWithRetry envNoImages sampleEpisode.still_path 3 1000
      (uploaded1399 envNoImages)).1 = .error (failure "attempt 3 failed") ∧
    calls (getMetadata envNoImages episode1399 []).2 =
      [.checkIfExists "metadata/episode_1399_s1_e2.json",
       .fetchTMDBEpisodeMetadata "1399" "1" "2",
       .uploadToBunny "metadata/episode_1399_s1_e2.json",
       .fetchImageWithRetry (.str "/s.jpg")] ∧
    (getMetadata envNoImages episode1399 []).1
      = .ok { status := 500, body := .error "Failed to fetch and upload data." } := by
  refine ⟨rfl, rfl, rfl, rfl⟩

/-- C6, amended: in the movie/tv cache-miss flow of the single route and of a batch
item, when the metadata fetch, the metadata upload and the log write succeed, the
answer is a success with `from = "tmdb"`, `metaUrl`, `imageUrl` and the fetched
metadata, and its `backdropUrl` is the CDN backdrop URL exactly when the metadata has
a (truthy) `backdrop_path` and both the backdrop fetch and the backdrop upload
succeeded; otherwise it is `null`. -/
theorem C6_backdrop_url (env : Env) (query : Query) (h : History)
    (metadata : ShowMetadata) (e1 e2 : List Event)
    (hvalid : query.invalid = false) (hep : query.isEpisode = false)
    (hmiss : (checkIfExists env (Layout.metadata (str query.type) (str query.id)) h).1
      = .ok false)
    (hfetch : fetchTMDBMetadata env (str query.id) (str query.type)
      (h ++ (checkIfExists env (Layout.metadata (str query.type) (str query.id)) h).2)
        = (.ok metadata, e1))
    (hupload : uploadToBunny env (Layout.metadata (str query.type) (str query.id))
      (.showJson metadata)
      (h ++ (checkIfExists env (Layout.metadata (str query.type) (str query.id)) h).2 ++ e1)
        = (.ok (), e2)) :
    let hP := h ++ (checkIfExists env (Layout.metadata (str query.type) (str query.id)) h).2
      ++ e1 ++ e2
    let hB := hP ++ (posterStep env metadata.poster_path
      (Layout.poster (str query.type) (str query.id)) hP).2
    let hL := hB ++ (backdropStep env metadata.backdrop_path
      (Layout.backdrop (str query.type) (str query.id)) hB).2
    (logUpload env (str query.id) (str query.type) "uploaded" hL).1 = .ok () →
      ∃ backdropUrl,
        (getMetadata env query h).1 = .ok { status := 200, body := .item {
          from_ := "tmdb"
          metaUrl := Layout.url (str env.CDN_BASE_URL)
            (Layout.metadata (str query.type) (str query.id))
          imageUrl := Layout.url (str env.CDN_BASE_URL)
            (Layout.poster (str query.type) (str query.id))
          backdropUrl := backdropUrl
          metadata := some (.movieOrTv metadata) } } ∧
        (batchItem env (str env.CDN_BASE_URL) (str query.type) (str query.id) h).1 =
          .ok (.item (str query.id) {
            from_ := "tmdb"
            metaUrl := Layout.url (str env.CDN_BASE_URL)
              (Layout.metadata (str query.type) (str query.id))
            imageUrl := Layout.url (str env.CDN_BASE_URL)
              (Layout.poster (str query.type) (str query.id))
            backdropUrl := backdropUrl
            metadata := some (.movieOrTv metadata) }) ∧
        (backdropUrl = .url (Layout.url (str env.CDN_BASE_URL)
            (Layout.backdrop (str query.type) (str query.id))) ↔
          metadata.backdrop_path.truthy = true ∧
            ∃ buffer es,
              fetchImageWithRetry env metadata.backdrop_path 3 1000 hB = (.ok buffer, es) ∧
              (uploadToBunny env (Layout.backdrop (str query.type) (str query.id))
                (.ofBuffer buffer) (hB ++ es)).1 = .ok ()) ∧
        (backdropUrl ≠ .url (Layout.url (str env.CDN_BASE_URL)
            (Layout.backdrop (str query.type) (str query.id))) → backdropUrl = .null) := by
  intro hP hB hL hlog
  simp only [hL, hB, hP, Layout.metadata, Layout.poster, Layout.backdrop, Layout.url]
    at hmiss hfetch hupload hlog ⊢
  obtain ⟨hres, _⟩ := showMiss_uploaded env (str env.CDN_BASE_URL) (str query.id)
    (str query.type) _ hfetch hupload
  rw [getMetadata_show env query h hvalid hep, batchItem_run,
    showFlow_miss env (str env.CDN_BASE_URL) (str query.id) (str query.type) h hmiss]
  simp only [hres, hlog, respond, entryOf]
  refine ⟨_, rfl, rfl, ?_, ?_⟩
  · rw [← stored_iff]
    split <;> simp_all
  · split <;> simp_all

/-- Witness of C6: in a world where everything works the backdrop URL is returned. -/
theorem C6_backdrop_url_witness :
    (getMetadata envHealthy movie603 []).1 = .ok { status := 200, body := .item {
      from_ := "tmdb"
      metaUrl := "https://cdn.example/metadata/movie_603.json"
      imageUrl := "https://cdn.example/images/poster/movie_603.jpg"
      backdropUrl := .url "https://cdn.example/images/backdrop/movie_603.jpg"
      metadata := some (.movieOrTv sampleMetadata) } } := by
  obtain ⟨backdropUrl, hsingle, _, hiff, _⟩ :=
    C6_backdrop_url envHealthy movie603 [] sampleMetadata
      (fetchTMDBMetadata envHealthy "603" "movie" (probed603 envHealthy)).2
      (uploadToBunny envHealthy "metadata/movie_603.json" (.showJson sampleMetadata)
        (fetched603 envHealthy)).2
      rfl rfl rfl rfl rfl rfl
  have hb := hiff.2 ⟨rfl, _, _, rfl, rfl⟩
  rw [hb] at hsingle
  exact hsingle

/-- Counterexample to C6 as stated: the metadata fetch and the metadata upload
succeed, and so do both images, but the log write fails: the single route answers
500 and the batch item is an error entry. -/
theorem C6_counterexample :
    (checkIfExists envNoLog "metadata/movie_603.json" []).1 = .ok false ∧
    (fetchTMDBMetadata envNoLog "603" "movie" (probed603 envNoLog)).1 = .ok sampleMetadata ∧
    (uploadToBunny envNoLog "metadata/movie_603.json" (.showJson sampleMetadata)
      (fetched603 envNoLog)).1 = .ok () ∧
    (getMetadata envNoLog movie603 []).1
      = .ok { status := 500, body := .error "Failed to fetch and upload data." } ∧
    (batchItem envNoLog "https://cdn.example" "movie" "603" []).1
      = .ok (.error "603" "ENOENT: no such file or directory") := by
  refine ⟨rfl, rfl, rfl, rfl, rfl⟩

/-- C8, amended: path resolution is a function of the request parameters alone and
follows the persisted layout.  When `type` is "tv" and `season` and `episode` are
both non-empty, the single route checks the episode metadata path, uploads only to
the episode metadata and image paths, and returns the CDN URLs of these two paths;
otherwise it checks `metadata/{type}_{id}.json`, uploads only to that path and to
the poster and backdrop paths, and returns their CDN URLs (the backdrop URL or
`null`).  For the same `type` and `id` the batch item performs the same events as
the single route outside the episode flow and returns the same body. -/
theorem C8_path_resolution (env : Env) (query : Query) (h : History)
    (hvalid : query.invalid = false) :
    (query.isEpisode = true →
      (∃ rest, calls (getMetadata env query h).2 =
          .checkIfExists
            (Layout.episodeMetadata (str query.id) (str query.season) (str query.episode))
            :: rest ∧
        ∀ p, Event.uploadToBunny p ∈ rest →
          p = Layout.episodeMetadata (str query.id) (str query.season) (str query.episode) ∨
          p = Layout.episodeImage (str query.id) (str query.season) (str query.episode)) ∧
      ∀ item, (getMetadata env query h).1 = .ok { status := 200, body := .item item } →
        item.metaUrl = Layout.url (str env.CDN_BASE_URL)
          (Layout.episodeMetadata (str query.id) (str query.season) (str query.episode)) ∧
        item.imageUrl = Layout.url (str env.CDN_BASE_URL)
          (Layout.episodeImage (str query.id) (str query.season) (str query.episode)) ∧
        item.backdropUrl = .absent) ∧
    (query.isEpisode = false →
      (∃ rest, calls (getMetadata env query h).2 =
          .checkIfExists (Layout.metadata (str query.type) (str query.id)) :: rest ∧
        ∀ p, Event.uploadToBunny p ∈ rest →
          p = Layout.metadata (str query.type) (str query.id) ∨
          p = Layout.poster (str query.type) (str query.id) ∨
          p = Layout.backdrop (str query.type) (str query.id)) ∧
      (∀ item, (getMetadata env query h).1 = .ok { status := 200, body := .item item } →
        item.metaUrl = Layout.url (str env.CDN_BASE_URL)
          (Layout.metadata (str query.type) (str query.id)) ∧
        item.imageUrl = Layout.url (str env.CDN_BASE_URL)
          (Layout.poster (str query.type) (str query.id)) ∧
        (item.backdropUrl = .null ∨ item.backdropUrl = .url (Layout.url (str env.CDN_BASE_URL)
          (Layout.backdrop (str query.type) (str query.id))))) ∧
      (batchItem env (str env.CDN_BASE_URL) (str query.type) (str query.id) h).2 =
        (getMetadata env query h).2 ∧
      ∀ item, (getMetadata env query h).1 = .ok { status := 200, body := .item item } ↔
        (batchItem env (str env.CDN_BASE_URL) (str query.type) (str query.id) h).1 =
          .ok (.item (str query.id) item)) := by
  constructor
  · intro hep
    rw [getMetadata_episode env query h hvalid hep]
    simp only [Layout.episodeMetadata, Layout.episodeImage, Layout.url]
    refine ⟨episodeFlow_shape env _ _ _ _ h, ?_⟩
    intro item hitem
    simp only [Except.ok.injEq] at hitem
    exact episodeFlow_item env _ _ _ _ h item (respond_item _ _ hitem)
  · intro hep
    rw [getMetadata_show env query h hvalid hep, batchItem_run]
    simp only [Layout.metadata, Layout.poster, Layout.backdrop, Layout.url]
    refine ⟨showFlow_shape env _ _ _ h, ?_, trivial, ?_⟩
    · intro item hitem
      simp only [Except.ok.injEq] at hitem
      exact showFlow_item env _ _ _ h item (respond_item _ _ hitem)
    · intro item
      simp only [Except.ok.injEq]
      constructor
      · intro hitem
        rw [respond_item _ _ hitem]
        rfl
      · intro hitem
        rw [entryOf_item _ _ _ hitem]
        rfl

/-- Witness of C8: an episode request checks the episode metadata path. -/
theorem C8_path_resolution_witness :
    ∃ rest, calls (getMetadata envStored episode1399 []).2 =
        .checkIfExists "metadata/episode_1399_s1_e2.json" :: rest ∧
      ∀ p, Event.uploadToBunny p ∈ rest →
        p = "metadata/episode_1399_s1_e2.json" ∨ p = "images/episode/episode_1399_s1_e2.jpg" :=
  ((C8_path_resolution envStored episode1399 [] rfl).1 rfl).1

/-- Counterexample to C8 as stated: `season` and `episode` are both provided, yet a
request of type "movie" checks and returns the movie paths, not the episode
paths. -/
theorem C8_counterexample :
    movie603Episode.season = some "1" ∧ movie603Episode.episode = some "2" ∧
    movie603Episode.invalid = false ∧
    getMetadata envStored movie603Episode [] =
      (.ok { status := 200, body := .item {
          from_ := "cdn"
          metaUrl := "https://cdn.example/metadata/movie_603.json"
          imageUrl := "https://cdn.example/images/poster/movie_603.jpg"
          backdropUrl := .url "https://cdn.example/images/backdrop/movie_603.jpg"
          metadata := none } },
       [.checkIfExists "metadata/movie_603.json",
        .axiosHead "https://cdn.example/metadata/movie_603.json"]) ∧
    "metadata/movie_603.json" ≠ Layout.episodeMetadata "603" "1" "2" := by
  refine ⟨rfl, rfl, rfl, rfl, by decide⟩

/-- C10, amended: the metadata path is an injective key provided `season` and
`episode` contain no underscore (as for decimal numbers): if two valid requests of
the single route resolve to the same metadata path, they take the same flow and have
the same `type` and `id`, and in the episode flow the same `season` and `episode`.
In particular a movie/tv path never equals an episode path. -/
theorem C10_metadata_path_injective (env env' : Env) (h h' : History) (query query' : Query)
    (hvalid : query.invalid = false) (hvalid' : query'.invalid = false)
    (hclean : query.isEpisode = true →
      '_' ∉ (str query.season).data ∧ '_' ∉ (str query.episode).data)
    (hclean' : query'.isEpisode = true →
      '_' ∉ (str query'.season).data ∧ '_' ∉ (str query'.episode).data)
    (hpath : probedPath (getMetadata env query h).2
      = probedPath (getMetadata env' query' h').2) :
    query.isEpisode = query'.isEpisode ∧ query.type = query'.type ∧ query.id = query'.id ∧
      (query.isEpisode = true →
        query.season = query'.season ∧ query.episode = query'.episode) := by
  rw [getMetadata_probedPath env query h hvalid, getMetadata_probedPath env' query' h' hvalid',
    Option.some.injEq] at hpath
  obtain ⟨⟨id, hid⟩, htype⟩ := valid_query query hvalid
  obtain ⟨⟨id', hid'⟩, htype'⟩ := valid_query query' hvalid'
  have hstr : ∀ t : Option String, t = some "movie" ∨ t = some "tv" →
      str t = "movie" ∨ str t = "tv" := by
    intro t ht
    rcases ht with rfl | rfl
    · exact Or.inl rfl
    · exact Or.inr rfl
  by_cases hep : query.isEpisode = true <;> by_cases hep' : query'.isEpisode = true
  · obtain ⟨ht, ⟨s, hs⟩, ⟨e, he⟩⟩ := episode_query query hep
    obtain ⟨ht', ⟨s', hs'⟩, ⟨e', he'⟩⟩ := episode_query query' hep'
    simp only [hep, hep', if_true] at hpath
    obtain ⟨h1, h2, h3⟩ := episodeMetadata_inj _ _ _ _ _ _ (hclean hep).1 (hclean hep).2
      (hclean' hep').1 (hclean' hep').2 hpath
    rw [hid, hid', hs, hs', he, he'] at *
    simp only [str] at h1 h2 h3
    refine ⟨by rw [hep, hep'], by rw [ht, ht'], by rw [h1], fun _ => ⟨by rw [h2], by rw [h3]⟩⟩
  · simp only [Bool.not_eq_true] at hep'
    simp only [hep, hep', if_true, Bool.false_eq_true, if_false] at hpath
    exact absurd hpath.symm (metadata_ne_episodeMetadata _ _ _ _ _ (hstr _ htype'))
  · simp only [Bool.not_eq_true] at hep
    simp only [hep, hep', if_true, Bool.false_eq_true, if_false] at hpath
    exact absurd hpath (metadata_ne_episodeMetadata _ _ _ _ _ (hstr _ htype))
  · simp only [Bool.not_eq_true] at hep hep'
    simp only [hep, hep', Bool.false_eq_true, if_false] at hpath
    obtain ⟨h1, h2⟩ := metadata_inj _ _ _ _ (hstr _ htype) (hstr _ htype') hpath
    refine ⟨by rw [hep, hep'], ?_, ?_, fun hh => by simp [hep] at hh⟩
    · rcases htype with ht | ht <;> rcases htype' with ht' | ht' <;>
        rw [ht, ht'] at h1 ⊢ <;> simp [str] at h1
    · rw [hid, hid'] at h2 ⊢
      simp only [str] at h2
      rw [h2]

/-- Witness of C10: two requests for the same episode resolve to the same path and
agree in every parameter. -/
theorem C10_metadata_path_injective_witness :
    episode1399.isEpisode = episode1399.isEpisode ∧ episode1399.type = episode1399.type ∧
      episode1399.id = episode1399.id ∧
      (episode1399.isEpisode = true →
        episode1399.season = episode1399.season ∧ episode1399.episode = episode1399.episode) :=
  C10_metadata_path_injective envStored envDown [] [] episode1399 episode1399 rfl rfl
    (fun _ => ⟨by decide, by decide⟩) (fun _ => ⟨by decide, by decide⟩) rfl

/-- Counterexample to C10 as stated: two valid episode requests with different `id`
and `season` resolve to the same metadata path. -/
theorem C10_counterexample :
    episodeA.invalid = false ∧ episodeB.invalid = false ∧
    episodeA.isEpisode = true ∧ episodeB.isEpisode = true ∧
    probedPath (getMetadata envStored episodeA []).2
      = some "metadata/episode_1_s2_s3_e4.json" ∧
    probedPath (getMetadata envStored episodeB []).2
      = some "metadata/episode_1_s2_s3_e4.json" ∧
    episodeA.id ≠ episodeB.id ∧ episodeA.season ≠ episodeB.season := by
  refine ⟨rfl, rfl, rfl, rfl, rfl, rfl, by decide, by decide⟩

end Moonflix
